import Mathlib

/-!
# Hap Image container header: reader and writer (`hapimage.c`)

A shallow embedding of `src/source/hapimage.c`.

Memory model
* A buffer is a `List Byte`; a pointer into it is a natural-number offset from
  the start of the buffer.  Pointer arithmetic is exact (no wrap-around).
* A load or store through a pointer that lies outside the buffer is undefined
  behaviour in C; the embedding makes it an explicit outcome (`none`,
  `HeaderRead.outOfBounds`, `ReadOutcome.outOfBounds`).
* `uint32_t` and `unsigned int` are 32 bits wide: sums of such values are taken
  modulo `2 ^ 32`.  `unsigned long` values are natural numbers; the only place
  where their width matters is the conversion to the `uint32_t` parameter
  `buffer_length`, which is written `% 2 ^ 32`.
-/

namespace HapImage

/-! ## Definitions -/

/-- One `uint8_t`. -/
abbrev Byte := Fin 256

/-- Conversion of an integer value to `uint8_t` (as done by a store through a `uint8_t *`). -/
def toByte (v : Nat) : Byte := ⟨v % 256, Nat.mod_lt v (by decide)⟩

/-- The result codes of `enum HapImageResult` (`hapimage.h`), in declaration order. -/
inductive HapImageResult where
  | No_Error
  | Bad_Arguments
  | Buffer_Too_Small
  | Bad_Image
  | Internal_Error
  deriving DecidableEq, Repr

def kHapCompressorNone : Nat := 0xA
def kHapCompressorSnappy : Nat := 0xB
def kHapCompressorComplex : Nat := 0xC

def kHapFormatRGBDXT1 : Nat := 0xB
def kHapFormatRGBADXT5 : Nat := 0xE
def kHapFormatYCoCgDXT5 : Nat := 0xF
def kHapFormatARGTC1 : Nat := 0x1

def kHapSectionMultipleImages : Nat := 0x0D
def kHapSectionDimensions : Nat := 0x05

/-- The value of `*(((uint8_t *)buffer) + p)`, or `none` when `p` is outside the buffer. -/
def load (buffer : List Byte) (p : Nat) : Option Nat :=
  match buffer[p]? with
  | some b => some b.val
  | none => none

/-- The buffer after `*(((uint8_t *)buffer) + p) = v`, or `none` when `p` is outside the
buffer. -/
def store (buffer : List Byte) (p : Nat) (v : Nat) : Option (List Byte) :=
  if p < buffer.length then some (buffer.set p (toByte v)) else none

/-- The three-byte little-endian load `hapimage_read_3_byte_uint(buffer + p)`. -/
def hapimage_read_3_byte_uint (buffer : List Byte) (p : Nat) : Option Nat :=
  match load buffer p, load buffer (p + 1), load buffer (p + 2) with
  | some b0, some b1, some b2 => some ((b0 + (b1 <<< 8) + (b2 <<< 16)) % 2 ^ 32)
  | _, _, _ => none

/-- The store `hapimage_write_3_byte_uint(buffer + p, value)`. -/
def hapimage_write_3_byte_uint (buffer : List Byte) (p : Nat) (value : Nat) :
    Option (List Byte) :=
  match store buffer p (value &&& 0xFF) with
  | none => none
  | some m1 =>
    match store m1 (p + 1) ((value >>> 8) &&& 0xFF) with
    | none => none
    | some m2 => store m2 (p + 2) ((value >>> 16) &&& 0xFF)

/-- The four-byte little-endian load `hapimage_read_4_byte_uint(buffer + p)`. -/
def hapimage_read_4_byte_uint (buffer : List Byte) (p : Nat) : Option Nat :=
  match load buffer p, load buffer (p + 1), load buffer (p + 2), load buffer (p + 3) with
  | some b0, some b1, some b2, some b3 =>
    some ((b0 + (b1 <<< 8) + (b2 <<< 16) + (b3 <<< 24)) % 2 ^ 32)
  | _, _, _, _ => none

/-- The store `hapimage_write_4_byte_uint(buffer + p, value)`. -/
def hapimage_write_4_byte_uint (buffer : List Byte) (p : Nat) (value : Nat) :
    Option (List Byte) :=
  match store buffer p (value &&& 0xFF) with
  | none => none
  | some m1 =>
    match store m1 (p + 1) ((value >>> 8) &&& 0xFF) with
    | none => none
    | some m2 =>
      match store m2 (p + 2) ((value >>> 16) &&& 0xFF) with
      | none => none
      | some m3 => store m3 (p + 3) ((value >>> 24) &&& 0xFF)

def hapimage_top_4_bits (x : Nat) : Nat := (x &&& 0xF0) >>> 4

def hapimage_bottom_4_bits (x : Nat) : Nat := x &&& 0x0F

/-- What a call of `hapimage_read_section_header` does: it loads outside the buffer, or it
returns an error code, or it returns `HapImageResult_No_Error` with the three out-parameters
set. -/
inductive HeaderRead where
  | outOfBounds
  | failed (result : HapImageResult)
  | ok (header_length section_length section_type : Nat)
  deriving DecidableEq, Repr

/-- The function `hapimage_read_section_header(buffer + p, buffer_length, ...)`.
`buffer_length` is the `uint32_t` argument; the final check adds two `uint32_t` values, so the
sum is taken modulo `2 ^ 32`. -/
def hapimage_read_section_header (buffer : List Byte) (p : Nat) (buffer_length : Nat) :
    HeaderRead :=
  if buffer_length < 4 then .failed .Bad_Image
  else
    match hapimage_read_3_byte_uint buffer p with
    | none => .outOfBounds
    | some l24 =>
      if l24 = 0 then
        if buffer_length < 8 then .failed .Bad_Image
        else
          match hapimage_read_4_byte_uint buffer (p + 4) with
          | none => .outOfBounds
          | some section_length =>
            match load buffer (p + 3) with
            | none => .outOfBounds
            | some section_type =>
              if (8 + section_length) % 2 ^ 32 > buffer_length then .failed .Bad_Image
              else .ok 8 section_length section_type
      else
        match load buffer (p + 3) with
        | none => .outOfBounds
        | some section_type =>
          if (4 + l24) % 2 ^ 32 > buffer_length then .failed .Bad_Image
          else .ok 4 l24 section_type

/-- The function `hapimage_write_section_header(buffer + p, section_length, section_type)`. -/
def hapimage_write_section_header (buffer : List Byte) (p : Nat) (section_length : Nat)
    (section_type : Nat) : Option (List Byte) :=
  match hapimage_write_3_byte_uint buffer p section_length with
  | none => none
  | some m => store m (p + 3) section_type

/-- The function `hapimage_is_top_level_section`; the C `int` result is `1` or `0`. -/
def hapimage_is_top_level_section (section_type : Nat) : Nat :=
  if section_type = kHapSectionMultipleImages then 1
  else
    let pf := hapimage_bottom_4_bits section_type
    let ct := hapimage_top_4_bits section_type
    if (pf = kHapFormatRGBDXT1 ∨ pf = kHapFormatRGBADXT5 ∨ pf = kHapFormatYCoCgDXT5
          ∨ pf = kHapFormatARGTC1)
        ∧ (ct = kHapCompressorNone ∨ ct = kHapCompressorSnappy ∨ ct = kHapCompressorComplex)
    then 1
    else 0

/-- The four locations the caller passes to `HapImageRead`: `*width`, `*height`, `*frame`
(`none` is `NULL`, `some o` is the pointer `inputBuffer + o`) and `*frameBytes`. -/
structure ReadOutputs where
  width : Nat
  height : Nat
  frame : Option Nat
  frameBytes : Nat
  deriving DecidableEq, Repr

/-- What a call of `HapImageRead` does. `outOfFuel` is the embedding running out of loop
iterations; `outOfBounds` is a load outside the input buffer; `returned r out` is a return of
`r` with the caller's four locations holding `out`. -/
inductive ReadOutcome where
  | outOfFuel
  | outOfBounds
  | returned (result : HapImageResult) (out : ReadOutputs)
  deriving DecidableEq, Repr

/-- The code after the `do ... while` loop of `HapImageRead`. -/
def HapImageRead.finish (buffer : List Byte) (dimensions : Option Nat) (out : ReadOutputs) :
    ReadOutcome :=
  match dimensions, out.frame with
  | some d, some _ =>
    match hapimage_read_4_byte_uint buffer d, hapimage_read_4_byte_uint buffer (d + 4) with
    | some w, some h => .returned .No_Error { out with width := w, height := h }
    | _, _ => .outOfBounds
  | _, _ => .returned .Bad_Image out

/-- The local `dimensions` after the `if ... else if ...` in the body of the loop, given the
header decoded at `pos`. -/
def HapImageRead.dimensionsAfter (pos section_header_length section_type : Nat)
    (dimensions : Option Nat) : Option Nat :=
  if section_type = kHapSectionDimensions then some (pos + section_header_length)
  else dimensions

/-- The output locations after the `if ... else if ...` in the body of the loop, given the
header decoded at `pos`: a top-level section sets `*frame` and `*frameBytes`, the latter to the
`uint32_t` sum of the two lengths. -/
def HapImageRead.outputsAfter (pos section_header_length section_length section_type : Nat)
    (out : ReadOutputs) : ReadOutputs :=
  if section_type = kHapSectionDimensions then out
  else if hapimage_is_top_level_section section_type ≠ 0 then
    { out with frame := some pos,
               frameBytes := (section_header_length + section_length) % 2 ^ 32 }
  else out

/-- The `do ... while` loop of `HapImageRead` followed by the code after it. `pos` is the
offset of the local pointer `inputBuffer`, `inputBufferBytes` the remaining count and
`dimensions` the local pointer of that name. The first argument bounds the number of
iterations. The pointer moves on by the two lengths one after the other; the count goes down
by their `uint32_t` sum, which has passed the check against `buffer_length`, so the
subtraction never goes below zero. -/
def HapImageRead.loop (buffer : List Byte) :
    Nat → Nat → Nat → Option Nat → ReadOutputs → ReadOutcome
  | 0, _, _, _, _ => .outOfFuel
  | fuel + 1, pos, inputBufferBytes, dimensions, out =>
    match hapimage_read_section_header buffer pos (inputBufferBytes % 2 ^ 32) with
    | .outOfBounds => .outOfBounds
    | .failed result => .returned result out
    | .ok section_header_length section_length section_type =>
      if ((HapImageRead.outputsAfter pos section_header_length section_length section_type
              out).frame = none
            ∨ HapImageRead.dimensionsAfter pos section_header_length section_type dimensions
              = none)
          ∧ inputBufferBytes - (section_header_length + section_length) % 2 ^ 32 > 0 then
        HapImageRead.loop buffer fuel (pos + section_header_length + section_length)
          (inputBufferBytes - (section_header_length + section_length) % 2 ^ 32)
          (HapImageRead.dimensionsAfter pos section_header_length section_type dimensions)
          (HapImageRead.outputsAfter pos section_header_length section_length section_type out)
      else
        HapImageRead.finish buffer
          (HapImageRead.dimensionsAfter pos section_header_length section_type dimensions)
          (HapImageRead.outputsAfter pos section_header_length section_length section_type out)

/-- The condition `signature[0] != 0x88 || signature[1] != 0x48 || signature[2] != 0x61 ||
signature[3] != 0x70` of `HapImageRead`, evaluated from left to right and only as far as
needed; `none` when a byte it needs lies outside the buffer. -/
def HapImageRead.signatureMismatch (buffer : List Byte) : Option Bool :=
  match load buffer 0 with
  | none => none
  | some s0 =>
    if s0 ≠ 0x88 then some true
    else
      match load buffer 1 with
      | none => none
      | some s1 =>
        if s1 ≠ 0x48 then some true
        else
          match load buffer 2 with
          | none => none
          | some s2 =>
            if s2 ≠ 0x61 then some true
            else
              match load buffer 3 with
              | none => none
              | some s3 => if s3 ≠ 0x70 then some true else some false

/-- The function `HapImageRead(inputBuffer, inputBufferBytes, width, height, frame,
frameBytes)`; `out` holds the values of the four output locations before the call. Every
iteration of the loop that goes round again has loaded a header inside the buffer and moved
the pointer on by at least four, so `inputBuffer.length` iterations are never used up. -/
def HapImageRead (inputBuffer : List Byte) (inputBufferBytes : Nat) (out : ReadOutputs) :
    ReadOutcome :=
  if inputBufferBytes < 4 then .returned .Buffer_Too_Small out
  else
    match HapImageRead.signatureMismatch inputBuffer with
    | none => .outOfBounds
    | some true => .returned .Bad_Image out
    | some false =>
      HapImageRead.loop inputBuffer inputBuffer.length 4 (inputBufferBytes - 4) none
        { out with frame := none }

/-- What a call of `HapImageWrite` leaves behind: the returned code, the output buffer and the
location `*outputBufferBytesUsed` (`none` for a null pointer). -/
structure WriteOutcome where
  result : HapImageResult
  outputBuffer : Option (List Byte)
  outputBufferBytesUsed : Option Nat
  deriving DecidableEq, Repr

/-- The function `HapImageWrite(width, height, outputBuffer, outputBufferBytes,
outputBufferBytesUsed)`. The two pointers are `none` when null; `outputBufferBytesUsed`
carries the value stored at the location before the call. The result is `none` when a store
falls outside the output buffer. -/
def HapImageWrite (width height : Nat) (outputBuffer : Option (List Byte))
    (outputBufferBytes : Nat) (outputBufferBytesUsed : Option Nat) : Option WriteOutcome :=
  match outputBuffer, outputBufferBytesUsed with
  | some buf, some _ =>
    if outputBufferBytes < 16 then
      some ⟨.Buffer_Too_Small, outputBuffer, outputBufferBytesUsed⟩
    else
      match store buf 0 0x88 with
      | none => none
      | some m0 =>
      match store m0 1 0x48 with
      | none => none
      | some m1 =>
      match store m1 2 0x61 with
      | none => none
      | some m2 =>
      match store m2 3 0x70 with
      | none => none
      | some m3 =>
      match hapimage_write_section_header m3 4 8 kHapSectionDimensions with
      | none => none
      | some m4 =>
      match hapimage_write_4_byte_uint m4 (4 + 4) width with
      | none => none
      | some m5 =>
      match hapimage_write_4_byte_uint m5 (4 + 8) height with
      | none => none
      | some m6 => some ⟨.No_Error, some m6, some 16⟩
  | _, _ => some ⟨.Bad_Arguments, outputBuffer, outputBufferBytesUsed⟩

/-- A section of the container: the header form, the type byte and the body. -/
structure Section where
  extended : Bool
  type : Byte
  body : List Byte
  deriving DecidableEq, Repr

/-- A compact header holds a non-zero body length below `2 ^ 24`; an extended header holds a
body length below `2 ^ 32`. -/
def Section.WellFormed (s : Section) : Prop :=
  if s.extended then s.body.length < 2 ^ 32
  else 0 < s.body.length ∧ s.body.length < 2 ^ 24

instance (s : Section) : Decidable s.WellFormed := by
  unfold Section.WellFormed; infer_instance

/-- The bytes of a section: `Length24 Type Body` or `Zero24 Type Length32 Body`, all integers
little-endian. -/
def Section.bytes (s : Section) : List Byte :=
  let n := s.body.length
  if s.extended then
    [0, 0, 0, s.type, toByte n, toByte (n / 2 ^ 8), toByte (n / 2 ^ 16), toByte (n / 2 ^ 24)]
      ++ s.body
  else
    [toByte n, toByte (n / 2 ^ 8), toByte (n / 2 ^ 16), s.type] ++ s.body

/-- The four signature bytes that open a Hap Image file. -/
def signature : List Byte := [0x88, 0x48, 0x61, 0x70]

/-- The header bytes that `HapImageWrite` produces for `width` and `height`. -/
def headerBytes (width height : Nat) : List Byte :=
  [0x88, 0x48, 0x61, 0x70, 0x08, 0x00, 0x00, 0x05,
   toByte width, toByte (width / 2 ^ 8), toByte (width / 2 ^ 16), toByte (width / 2 ^ 24),
   toByte height, toByte (height / 2 ^ 8), toByte (height / 2 ^ 16), toByte (height / 2 ^ 24)]

/-- The length of the header of a section. -/
def Section.headerLength (s : Section) : Nat := if s.extended then 8 else 4

/-- Moving every pointer in the output locations `k` bytes on. -/
def shiftOutputs (k : Nat) (out : ReadOutputs) : ReadOutputs :=
  { out with frame := out.frame.map (k + ·) }

/-- Moving every pointer in an outcome `k` bytes on. -/
def shiftOutcome (k : Nat) : ReadOutcome → ReadOutcome
  | .outOfFuel => .outOfFuel
  | .outOfBounds => .outOfBounds
  | .returned r out => .returned r (shiftOutputs k out)

/-- The dimensions section that `HapImageWrite` produces: compact header, type `0x05`, body the
width and the height as little-endian 32-bit integers. -/
def dimensionsSection (width height : Nat) : Section :=
  { extended := false
    type := 0x05
    body := [toByte width, toByte (width / 2 ^ 8), toByte (width / 2 ^ 16),
             toByte (width / 2 ^ 24),
             toByte height, toByte (height / 2 ^ 8), toByte (height / 2 ^ 16),
             toByte (height / 2 ^ 24)] }

/-- The bytes of a sequence of sections, one after the other. -/
def sectionsBytes : List Section → List Byte
  | [] => []
  | s :: rest => s.bytes ++ sectionsBytes rest

/-- A file: the signature followed by a sequence of sections. -/
def fileBytes (sections : List Section) : List Byte := signature ++ sectionsBytes sections

/-- The section carries the dimensions tag. -/
def Section.IsDimensions (s : Section) : Prop := s.type.val = kHapSectionDimensions

/-- The section has a type that `hapimage_is_top_level_section` accepts. -/
def Section.IsTopLevel (s : Section) : Prop := hapimage_is_top_level_section s.type.val ≠ 0

instance (s : Section) : Decidable s.IsDimensions := by
  unfold Section.IsDimensions; infer_instance

instance (s : Section) : Decidable s.IsTopLevel := by
  unfold Section.IsTopLevel; infer_instance

/-- The sequence holds a dimensions section and a top-level section. -/
def HasBoth (sections : List Section) : Prop :=
  (∃ s ∈ sections, s.IsDimensions) ∧ (∃ s ∈ sections, s.IsTopLevel)

instance (sections : List Section) : Decidable (HasBoth sections) := by
  unfold HasBoth; infer_instance

/-- A three-section file for C7: dimensions (1 by 1), one top-level section, one section of
unknown type. -/
def trailingSectionFile : List Section :=
  [⟨false, 0x05, [1, 0, 0, 0, 1, 0, 0, 0]⟩, ⟨false, 0xAB, [0]⟩, ⟨false, 0x00, [0]⟩]

/-- A top-level section with an 8-byte header and a body of `2 ^ 32 - 20` bytes. -/
def hugeTopLevelSection : Section := ⟨true, 0xAB, List.replicate (2 ^ 32 - 20) 0⟩

/-- A section of unknown type with an 8-byte header and a body of `2 ^ 32 - 25` bytes. -/
def hugeUnknownSection : Section := ⟨true, 0x00, List.replicate (2 ^ 32 - 25) 0⟩

/-- The local `dimensions` after the loop has gone over the sections `sections`, the first of
which stands at offset `pos`. -/
def walkDimensions : Nat → List Section → Option Nat → Option Nat
  | _, [], dimensions => dimensions
  | pos, s :: rest, dimensions =>
    walkDimensions (pos + s.bytes.length) rest
      (HapImageRead.dimensionsAfter pos s.headerLength s.type.val dimensions)

/-- The output locations after the loop has gone over the sections `sections`, the first of
which stands at offset `pos`. -/
def walkOutputs : Nat → List Section → ReadOutputs → ReadOutputs
  | _, [], out => out
  | pos, s :: rest, out =>
    walkOutputs (pos + s.bytes.length) rest
      (HapImageRead.outputsAfter pos s.headerLength s.body.length s.type.val out)

/-- A dimensions section with an 8-byte header and a body of `2 ^ 32 - 13` bytes. -/
def hugeDimensionsSection : Section := ⟨true, 0x05, List.replicate (2 ^ 32 - 13) 0⟩

/-- What `*frame` and `*frameBytes` can hold while the walk over `buffer` is under way:
`NULL` and the value `frameBytes0` that the caller's `frameBytes` had before the call, or the
offset (4 or more) of a section header that decodes with a top-level type and the `uint32_t`
sum of that header's two lengths. -/
def FrameState (buffer : List Byte) (frameBytes0 : Nat) (out : ReadOutputs) : Prop :=
  (out.frame = none ∧ out.frameBytes = frameBytes0)
    ∨ ∃ o hl sl ty bl, 4 ≤ o ∧ out.frame = some o
        ∧ hapimage_read_section_header buffer o bl = .ok hl sl ty
        ∧ hapimage_is_top_level_section ty = 1
        ∧ out.frameBytes = (hl + sl) % 2 ^ 32

/-! ## Lemmas -/

set_option maxRecDepth 100000

theorem and_0xFF (v : Nat) : v &&& 0xFF = v % 256 :=
  Nat.and_pow_two_sub_one_eq_mod v 8

theorem toByte_and_0xFF (v : Nat) : toByte (v &&& 0xFF) = toByte v := by
  simp [toByte, and_0xFF]

theorem toByte_shift_and_0xFF (v k : Nat) : toByte ((v >>> k) &&& 0xFF) = toByte (v / 2 ^ k) := by
  simp [toByte, and_0xFF, Nat.shiftRight_eq_div_pow]

theorem toByte_val (v : Nat) : (toByte v).val = v % 256 := rfl

/-- A store inside the buffer replaces one byte. -/
theorem store_eq_some (buffer : List Byte) (p v : Nat) (h : p < buffer.length) :
    store buffer p v = some (buffer.set p (toByte v)) := by
  simp [store, h]

/-- A store either fails or keeps the length of the buffer. -/
theorem store_length {buffer m : List Byte} {p v : Nat} (h : store buffer p v = some m) :
    m.length = buffer.length := by
  unfold store at h
  split at h
  · cases h; simp
  · cases h

/-- A buffer of at least sixteen bytes, split into its first sixteen bytes and the rest. -/
theorem exists_sixteen (buf : List Byte) (h : 16 ≤ buf.length) :
    ∃ b0 b1 b2 b3 b4 b5 b6 b7 b8 b9 b10 b11 b12 b13 b14 b15 rest,
      buf = b0 :: b1 :: b2 :: b3 :: b4 :: b5 :: b6 :: b7 :: b8 :: b9 :: b10 :: b11 :: b12
        :: b13 :: b14 :: b15 :: rest := by
  rcases buf with _ | ⟨b0, _ | ⟨b1, _ | ⟨b2, _ | ⟨b3, _ | ⟨b4, _ | ⟨b5, _ | ⟨b6, _ | ⟨b7,
    _ | ⟨b8, _ | ⟨b9, _ | ⟨b10, _ | ⟨b11, _ | ⟨b12, _ | ⟨b13, _ | ⟨b14, _ | ⟨b15, rest⟩⟩⟩⟩⟩⟩⟩⟩⟩⟩⟩⟩⟩⟩⟩⟩
  all_goals first
    | exact ⟨_, _, _, _, _, _, _, _, _, _, _, _, _, _, _, _, _, rfl⟩
    | (exfalso; simp at h)

/-- With a capacity of at least sixteen that the buffer really has, the writer succeeds and
replaces exactly the first sixteen bytes. -/
theorem HapImageWrite_eq (width height cap used : Nat) (buf : List Byte)
    (h16 : 16 ≤ cap) (hcap : cap ≤ buf.length) :
    HapImageWrite width height (some buf) cap (some used)
      = some ⟨.No_Error, some (headerBytes width height ++ buf.drop 16), some 16⟩ := by
  obtain ⟨b0, b1, b2, b3, b4, b5, b6, b7, b8, b9, b10, b11, b12, b13, b14, b15, rest, rfl⟩ :=
    exists_sixteen buf (le_trans h16 hcap)
  have hc : ¬ cap < 16 := by omega
  simp [HapImageWrite, hc, store, hapimage_write_section_header, hapimage_write_3_byte_uint,
    hapimage_write_4_byte_uint, headerBytes, kHapSectionDimensions, toByte_and_0xFF,
    toByte_shift_and_0xFF, Nat.shiftRight_eq_div_pow]
  decide

theorem load_append_right (pre x : List Byte) (i : Nat) :
    load (pre ++ x) (pre.length + i) = load x i := by
  simp [load, List.getElem?_append_right]

theorem load_append_left (x post : List Byte) (i : Nat) (h : i < x.length) :
    load (x ++ post) i = load x i := by
  simp [load, List.getElem?_append_left h]

theorem load_take (buffer : List Byte) (k i : Nat) :
    load (buffer.take k) i = if i < k then load buffer i else none := by
  unfold load
  rw [List.getElem?_take]
  by_cases h : i < k <;> simp [h]

theorem Section.length_bytes (s : Section) :
    s.bytes.length = s.headerLength + s.body.length := by
  unfold Section.bytes Section.headerLength
  split <;> simp <;> omega

theorem read_3_byte_uint_eq {buffer : List Byte} {p b0 b1 b2 : Nat}
    (h0 : load buffer p = some b0) (h1 : load buffer (p + 1) = some b1)
    (h2 : load buffer (p + 2) = some b2) :
    hapimage_read_3_byte_uint buffer p = some ((b0 + b1 * 2 ^ 8 + b2 * 2 ^ 16) % 2 ^ 32) := by
  simp [hapimage_read_3_byte_uint, h0, h1, h2, Nat.shiftLeft_eq]

theorem read_4_byte_uint_eq {buffer : List Byte} {p b0 b1 b2 b3 : Nat}
    (h0 : load buffer p = some b0) (h1 : load buffer (p + 1) = some b1)
    (h2 : load buffer (p + 2) = some b2) (h3 : load buffer (p + 3) = some b3) :
    hapimage_read_4_byte_uint buffer p
      = some ((b0 + b1 * 2 ^ 8 + b2 * 2 ^ 16 + b3 * 2 ^ 24) % 2 ^ 32) := by
  simp [hapimage_read_4_byte_uint, h0, h1, h2, h3, Nat.shiftLeft_eq]

/-- The decoder on the bytes of a well-formed section: it succeeds exactly when the section
fits into `buffer_length`. -/
theorem read_section_header_of_section (buffer : List Byte) (p r : Nat) (s : Section)
    (hs : s.WellFormed) (hsize : s.bytes.length < 2 ^ 32)
    (hagree : ∀ i, i < r → i < s.bytes.length → load buffer (p + i) = load s.bytes i) :
    hapimage_read_section_header buffer p r
      = if s.bytes.length ≤ r then .ok s.headerLength s.body.length s.type.val
        else .failed .Bad_Image := by
  have hlen := s.length_bytes
  rcases s with ⟨ext, t, body⟩
  cases ext
  · -- compact header
    simp only [Section.WellFormed, Section.headerLength, Bool.false_eq_true, if_false] at hs hlen ⊢
    rw [hlen] at hagree hsize ⊢
    unfold hapimage_read_section_header
    by_cases h4 : r < 4
    · rw [if_pos h4, if_neg (by omega)]
    · rw [if_neg h4]
      have l0 : load buffer p = some (body.length % 256) :=
        (hagree 0 (by omega) (by omega)).trans rfl
      have l1 : load buffer (p + 1) = some (body.length / 2 ^ 8 % 256) :=
        (hagree 1 (by omega) (by omega)).trans rfl
      have l2 : load buffer (p + 2) = some (body.length / 2 ^ 16 % 256) :=
        (hagree 2 (by omega) (by omega)).trans rfl
      have l3 : load buffer (p + 3) = some t.val :=
        (hagree 3 (by omega) (by omega)).trans (by simp [Section.bytes, load])
      have hval : (body.length % 256 + body.length / 2 ^ 8 % 256 * 2 ^ 8
          + body.length / 2 ^ 16 % 256 * 2 ^ 16) % 2 ^ 32 = body.length := by omega
      rw [read_3_byte_uint_eq l0 l1 l2, hval]
      simp only [l3]
      rw [if_neg (by omega)]
      have hmod : (4 + body.length) % 2 ^ 32 = 4 + body.length := by omega
      rw [hmod]
      by_cases hfit : 4 + body.length ≤ r
      · rw [if_neg (by omega), if_pos hfit]
      · rw [if_pos (by omega), if_neg hfit]
  · -- extended header
    simp only [Section.WellFormed, Section.headerLength, if_true] at hs hlen ⊢
    rw [hlen] at hagree hsize ⊢
    unfold hapimage_read_section_header
    by_cases h4 : r < 4
    · rw [if_pos h4, if_neg (by omega)]
    · rw [if_neg h4]
      have l0 : load buffer p = some 0 := (hagree 0 (by omega) (by omega)).trans rfl
      have l1 : load buffer (p + 1) = some 0 := (hagree 1 (by omega) (by omega)).trans rfl
      have l2 : load buffer (p + 2) = some 0 := (hagree 2 (by omega) (by omega)).trans rfl
      rw [read_3_byte_uint_eq l0 l1 l2]
      simp only [Nat.zero_mul, Nat.add_zero, Nat.zero_mod, if_true]
      by_cases h8 : r < 8
      · rw [if_pos h8, if_neg (by omega)]
      · rw [if_neg h8]
        have l3 : load buffer (p + 3) = some t.val :=
          (hagree 3 (by omega) (by omega)).trans (by simp [Section.bytes, load])
        have l4 : load buffer (p + 4) = some (body.length % 256) :=
          (hagree 4 (by omega) (by omega)).trans rfl
        have l5 : load buffer (p + 4 + 1) = some (body.length / 2 ^ 8 % 256) :=
          (hagree 5 (by omega) (by omega)).trans rfl
        have l6 : load buffer (p + 4 + 2) = some (body.length / 2 ^ 16 % 256) :=
          (hagree 6 (by omega) (by omega)).trans rfl
        have l7 : load buffer (p + 4 + 3) = some (body.length / 2 ^ 24 % 256) :=
          (hagree 7 (by omega) (by omega)).trans (by simp [Section.bytes, load, toByte_val])
        have hval : (body.length % 256 + body.length / 2 ^ 8 % 256 * 2 ^ 8
            + body.length / 2 ^ 16 % 256 * 2 ^ 16 + body.length / 2 ^ 24 % 256 * 2 ^ 24) % 2 ^ 32
            = body.length := by omega
        rw [read_4_byte_uint_eq l4 l5 l6 l7, hval]
        simp only [l3]
        have hmod : (8 + body.length) % 2 ^ 32 = 8 + body.length := by omega
        rw [hmod]
        by_cases hfit : 8 + body.length ≤ r
        · rw [if_neg (by omega), if_pos hfit]
        · rw [if_pos (by omega), if_neg hfit]

/-- One turn of the loop over a well-formed section that fits into the remaining bytes. -/
theorem loop_section (buffer : List Byte) (fuel p n : Nat) (dims : Option Nat)
    (out : ReadOutputs) (s : Section) (hs : s.WellFormed) (hn : n < 2 ^ 32)
    (hfit : s.bytes.length ≤ n)
    (hagree : ∀ i, i < n → i < s.bytes.length → load buffer (p + i) = load s.bytes i) :
    HapImageRead.loop buffer (fuel + 1) p n dims out
      = if ((HapImageRead.outputsAfter p s.headerLength s.body.length s.type.val out).frame
              = none
            ∨ HapImageRead.dimensionsAfter p s.headerLength s.type.val dims = none)
            ∧ n - s.bytes.length > 0 then
          HapImageRead.loop buffer fuel (p + s.bytes.length) (n - s.bytes.length)
            (HapImageRead.dimensionsAfter p s.headerLength s.type.val dims)
            (HapImageRead.outputsAfter p s.headerLength s.body.length s.type.val out)
        else
          HapImageRead.finish buffer
            (HapImageRead.dimensionsAfter p s.headerLength s.type.val dims)
            (HapImageRead.outputsAfter p s.headerLength s.body.length s.type.val out) := by
  have hmod : n % 2 ^ 32 = n := Nat.mod_eq_of_lt hn
  have hlen := s.length_bytes
  have hsum : (s.headerLength + s.body.length) % 2 ^ 32 = s.bytes.length := by
    rw [← hlen]; exact Nat.mod_eq_of_lt (by omega)
  rw [HapImageRead.loop, hmod,
    read_section_header_of_section buffer p n s hs (by omega) hagree, if_pos hfit]
  simp only [Nat.add_assoc, hsum]
  rw [← hlen]

/-- More iterations than needed do not change what the loop does. -/
theorem loop_fuel_mono (buffer : List Byte) (k : Nat) :
    ∀ (fuel p n : Nat) (dims : Option Nat) (out : ReadOutputs),
      HapImageRead.loop buffer fuel p n dims out ≠ .outOfFuel →
      HapImageRead.loop buffer (fuel + k) p n dims out
        = HapImageRead.loop buffer fuel p n dims out := by
  intro fuel
  induction fuel with
  | zero =>
    intro p n dims out h
    exact absurd (by simp [HapImageRead.loop]) h
  | succ fuel ih =>
    intro p n dims out h
    have e : fuel + 1 + k = (fuel + k) + 1 := by omega
    rw [e]
    simp only [HapImageRead.loop] at h ⊢
    cases hdr : hapimage_read_section_header buffer p (n % 2 ^ 32) with
    | outOfBounds => rfl
    | failed r => rfl
    | ok hl sl ty =>
      simp only [hdr] at h ⊢
      split
      · rename_i hc
        rw [if_pos hc] at h
        exact ih _ _ _ _ h
      · rfl

theorem read_3_byte_uint_shift (pre rest : List Byte) (p : Nat) :
    hapimage_read_3_byte_uint (pre ++ rest) (pre.length + p) = hapimage_read_3_byte_uint rest p := by
  simp only [hapimage_read_3_byte_uint, Nat.add_assoc, load_append_right]

theorem read_4_byte_uint_shift (pre rest : List Byte) (p : Nat) :
    hapimage_read_4_byte_uint (pre ++ rest) (pre.length + p) = hapimage_read_4_byte_uint rest p := by
  simp only [hapimage_read_4_byte_uint, Nat.add_assoc, load_append_right]

theorem read_section_header_shift (pre rest : List Byte) (p r : Nat) :
    hapimage_read_section_header (pre ++ rest) (pre.length + p) r
      = hapimage_read_section_header rest p r := by
  simp only [hapimage_read_section_header, Nat.add_assoc, load_append_right,
    read_3_byte_uint_shift, read_4_byte_uint_shift]

theorem finish_shift (pre rest : List Byte) (dims : Option Nat) (out : ReadOutputs) :
    HapImageRead.finish (pre ++ rest) (dims.map (pre.length + ·)) (shiftOutputs pre.length out)
      = shiftOutcome pre.length (HapImageRead.finish rest dims out) := by
  rcases out with ⟨w, h, frame, fb⟩
  cases dims <;> cases frame <;>
    simp only [HapImageRead.finish, shiftOutputs, shiftOutcome, Option.map, Nat.add_assoc,
      read_4_byte_uint_shift]
  rename_i d f
  cases hapimage_read_4_byte_uint rest d <;> cases hapimage_read_4_byte_uint rest (d + 4) <;>
    simp [shiftOutcome, shiftOutputs]

theorem dimensionsAfter_shift (k p hl ty : Nat) (dims : Option Nat) :
    HapImageRead.dimensionsAfter (k + p) hl ty (dims.map (k + ·))
      = (HapImageRead.dimensionsAfter p hl ty dims).map (k + ·) := by
  unfold HapImageRead.dimensionsAfter
  split <;> simp [Nat.add_assoc]

theorem outputsAfter_shift (k p hl sl ty : Nat) (out : ReadOutputs) :
    HapImageRead.outputsAfter (k + p) hl sl ty (shiftOutputs k out)
      = shiftOutputs k (HapImageRead.outputsAfter p hl sl ty out) := by
  unfold HapImageRead.outputsAfter
  split
  · rfl
  · split <;> simp [shiftOutputs]

theorem shiftOutputs_frame_eq_none (k : Nat) (out : ReadOutputs) :
    (shiftOutputs k out).frame = none ↔ out.frame = none := by
  simp [shiftOutputs]

/-- The walk over `rest` does not depend on what stands before it in the buffer: placing
`pre` in front moves every pointer `pre.length` bytes on and changes nothing else. -/
theorem loop_shift (pre rest : List Byte) :
    ∀ (fuel p n : Nat) (dims : Option Nat) (out : ReadOutputs),
      HapImageRead.loop (pre ++ rest) fuel (pre.length + p) n (dims.map (pre.length + ·))
          (shiftOutputs pre.length out)
        = shiftOutcome pre.length (HapImageRead.loop rest fuel p n dims out) := by
  intro fuel
  induction fuel with
  | zero => intro p n dims out; simp [HapImageRead.loop, shiftOutcome]
  | succ fuel ih =>
    intro p n dims out
    simp only [HapImageRead.loop, read_section_header_shift]
    cases hdr : hapimage_read_section_header rest p (n % 2 ^ 32) with
    | outOfBounds => rfl
    | failed r => rfl
    | ok hl sl ty =>
      simp only [dimensionsAfter_shift, outputsAfter_shift, shiftOutputs_frame_eq_none,
        Option.map_eq_none', Nat.add_assoc]
      split
      · exact ih _ _ _ _
      · exact finish_shift pre rest _ _

theorem headerBytes_eq (width height : Nat) :
    headerBytes width height = signature ++ (dimensionsSection width height).bytes := by
  simp [headerBytes, signature, dimensionsSection, Section.bytes]
  decide

theorem dimensionsSection_wellFormed (width height : Nat) :
    (dimensionsSection width height).WellFormed := by
  simp [dimensionsSection, Section.WellFormed]

/-- The bytes at `pre.length` of `pre ++ x ++ post` are those of `x`. -/
theorem load_middle (pre x post : List Byte) (i : Nat) (h : i < x.length) :
    load (pre ++ (x ++ post)) (pre.length + i) = load x i := by
  rw [load_append_right, load_append_left _ _ _ h]

/-- Reading back the dimensions that the writer stored. -/
theorem read_dimensions (pre post : List Byte) (width height : Nat)
    (hw : width < 2 ^ 32) (hh : height < 2 ^ 32) :
    hapimage_read_4_byte_uint
        (pre ++ ((dimensionsSection width height).bytes ++ post)) (pre.length + 4) = some width
      ∧ hapimage_read_4_byte_uint
        (pre ++ ((dimensionsSection width height).bytes ++ post)) (pre.length + 4 + 4)
          = some height := by
  have hlen : (dimensionsSection width height).bytes.length = 12 := rfl
  have l (i : Nat) (hi : i < 12) :=
    load_middle pre (dimensionsSection width height).bytes post i (by omega)
  constructor
  · have h0 : load _ (pre.length + 4) = some (width % 256) := (l 4 (by omega)).trans rfl
    have h1 : load _ (pre.length + 4 + 1) = some (width / 2 ^ 8 % 256) :=
      (l 5 (by omega)).trans rfl
    have h2 : load _ (pre.length + 4 + 2) = some (width / 2 ^ 16 % 256) :=
      (l 6 (by omega)).trans rfl
    have h3 : load _ (pre.length + 4 + 3) = some (width / 2 ^ 24 % 256) :=
      (l 7 (by omega)).trans (by simp [dimensionsSection, Section.bytes, load, toByte_val])
    rw [read_4_byte_uint_eq h0 h1 h2 h3]
    congr 1
    omega
  · have h0 : load _ (pre.length + 4 + 4) = some (height % 256) :=
      (l 8 (by omega)).trans rfl
    have h1 : load _ (pre.length + 4 + 4 + 1) = some (height / 2 ^ 8 % 256) :=
      (l 9 (by omega)).trans rfl
    have h2 : load _ (pre.length + 4 + 4 + 2) = some (height / 2 ^ 16 % 256) :=
      (l 10 (by omega)).trans rfl
    have h3 : load _ (pre.length + 4 + 4 + 3) = some (height / 2 ^ 24 % 256) :=
      (l 11 (by omega)).trans (by simp [dimensionsSection, Section.bytes, load, toByte_val])
    rw [read_4_byte_uint_eq h0 h1 h2 h3]
    congr 1
    omega

/-- The reader on a buffer that opens with the signature: it enters the loop at offset 4 with
`*frame` set to `NULL`. -/
theorem HapImageRead_signature (rest : List Byte) (out : ReadOutputs) :
    HapImageRead (signature ++ rest) (signature ++ rest).length out
      = HapImageRead.loop (signature ++ rest) (signature ++ rest).length 4 rest.length none
          { out with frame := none } := by
  have hl : ¬ (signature ++ rest).length < 4 := by simp [signature]
  unfold HapImageRead
  rw [if_neg hl]
  have h0 : load (signature ++ rest) 0 = some 0x88 := rfl
  have h1 : load (signature ++ rest) 1 = some 0x48 := rfl
  have h2 : load (signature ++ rest) 2 = some 0x61 := rfl
  have h3 : load (signature ++ rest) 3 = some 0x70 := by simp [signature, load]; rfl
  have hm : HapImageRead.signatureMismatch (signature ++ rest) = some false := by
    simp [HapImageRead.signatureMismatch, h0, h1, h2, h3]
  rw [hm]
  congr 1

theorem shiftOutcome_eq_returned {k : Nat} {x : ReadOutcome} {r : HapImageResult}
    {w h o n : Nat} (hx : shiftOutcome k x = .returned r ⟨w, h, some o, n⟩) :
    ∃ o1, x = .returned r ⟨w, h, some o1, n⟩ ∧ o = k + o1 := by
  cases x with
  | outOfFuel => cases hx
  | outOfBounds => cases hx
  | returned r1 out1 =>
    rcases out1 with ⟨w1, h1, f1, n1⟩
    cases f1 with
    | none => simp [shiftOutcome, shiftOutputs] at hx
    | some o1 =>
      simp only [shiftOutcome, shiftOutputs, Option.map, ReadOutcome.returned.injEq,
        ReadOutputs.mk.injEq, Option.some.injEq] at hx
      obtain ⟨rfl, rfl, rfl, rfl, rfl⟩ := hx
      exact ⟨o1, rfl, rfl⟩

/-- The loop on a buffer with nothing left returns `Bad_Image`: the header decoder is handed
`buffer_length` 0. -/
theorem loop_nothing_left (buffer : List Byte) (fuel p : Nat) (dims : Option Nat)
    (out : ReadOutputs) :
    HapImageRead.loop buffer (fuel + 1) p 0 dims out = .returned .Bad_Image out := by
  simp [HapImageRead.loop, hapimage_read_section_header]

theorem load_lt {buffer : List Byte} {p v : Nat} (h : load buffer p = some v) :
    p < buffer.length := by
  unfold load at h
  by_contra hge
  rw [List.getElem?_eq_none (by omega)] at h
  cases h

/-- A header that decodes has its four first bytes inside the buffer, a length of 4 or 8, and
a 32-bit sum of the two lengths that is at most `buffer_length`. -/
theorem read_section_header_ok {buffer : List Byte} {p r hl sl ty : Nat}
    (h : hapimage_read_section_header buffer p r = .ok hl sl ty) :
    p + 3 < buffer.length ∧ (hl = 4 ∨ hl = 8) ∧ (hl + sl) % 2 ^ 32 ≤ r := by
  unfold hapimage_read_section_header at h
  split at h
  · cases h
  · split at h
    · cases h
    · split at h
      · split at h
        · cases h
        · split at h
          · cases h
          · split at h
            · cases h
            · rename_i ht
              split at h
              · cases h
              · rename_i hle
                cases h
                exact ⟨load_lt ht, Or.inr rfl, by omega⟩
      · split at h
        · cases h
        · rename_i ht
          split at h
          · cases h
          · rename_i hle
            cases h
            exact ⟨load_lt ht, Or.inl rfl, by omega⟩

theorem finish_ne_outOfFuel (buffer : List Byte) (dims : Option Nat) (out : ReadOutputs) :
    HapImageRead.finish buffer dims out ≠ .outOfFuel := by
  unfold HapImageRead.finish
  split
  · split <;> simp
  · simp

/-- The loop never uses up its iterations when it is given one for every four bytes between
the pointer and the end of the buffer, and one more. -/
theorem loop_ne_outOfFuel (buffer : List Byte) :
    ∀ (fuel p n : Nat) (dims : Option Nat) (out : ReadOutputs),
      (buffer.length - p) / 4 + 1 ≤ fuel →
      HapImageRead.loop buffer fuel p n dims out ≠ .outOfFuel := by
  intro fuel
  induction fuel with
  | zero => intro p n dims out h; omega
  | succ fuel ih =>
    intro p n dims out hfuel
    rw [HapImageRead.loop]
    cases hdr : hapimage_read_section_header buffer p (n % 2 ^ 32) with
    | outOfBounds => simp
    | failed r => simp
    | ok hl sl ty =>
      obtain ⟨hp, hhl, _⟩ := read_section_header_ok hdr
      simp only []
      split
      · apply ih
        have : buffer.length - (p + hl + sl) ≤ buffer.length - p - 4 := by omega
        have h2 : (buffer.length - (p + hl + sl)) / 4 ≤ (buffer.length - p - 4) / 4 :=
          Nat.div_le_div_right this
        omega
      · exact finish_ne_outOfFuel _ _ _

/-- The signature comparison comes out equal only after loading all four bytes. -/
theorem signatureMismatch_false {buffer : List Byte}
    (h : HapImageRead.signatureMismatch buffer = some false) : 3 < buffer.length := by
  unfold HapImageRead.signatureMismatch at h
  split at h
  · cases h
  · split at h
    · cases h
    · split at h
      · cases h
      · split at h
        · cases h
        · split at h
          · cases h
          · split at h
            · cases h
            · split at h
              · cases h
              · rename_i h3
                exact load_lt h3

/-- The reader always comes to an end within the iterations the embedding gives it. -/
theorem HapImageRead_ne_outOfFuel (buf : List Byte) (n : Nat) (out : ReadOutputs) :
    HapImageRead buf n out ≠ .outOfFuel := by
  unfold HapImageRead
  split
  · simp
  · split
    · simp
    · simp
    · rename_i hm
      apply loop_ne_outOfFuel
      have := signatureMismatch_false hm
      omega

theorem dimensionsAfter_ne_none (p : Nat) (s : Section) (dims : Option Nat) :
    HapImageRead.dimensionsAfter p s.headerLength s.type.val dims ≠ none
      ↔ (dims ≠ none ∨ s.IsDimensions) := by
  unfold HapImageRead.dimensionsAfter Section.IsDimensions
  split <;> simp [*]

theorem outputsAfter_frame_ne_none (p : Nat) (s : Section) (out : ReadOutputs) :
    (HapImageRead.outputsAfter p s.headerLength s.body.length s.type.val out).frame ≠ none
      ↔ (out.frame ≠ none ∨ s.IsTopLevel) := by
  unfold HapImageRead.outputsAfter Section.IsTopLevel
  split
  · rename_i h5
    have : hapimage_is_top_level_section s.type.val = 0 := by rw [h5]; decide
    simp [this]
  · split <;> simp [*]

theorem finish_of_not_both (buffer : List Byte) (dims : Option Nat) (out : ReadOutputs)
    (h : ¬ (dims ≠ none ∧ out.frame ≠ none)) :
    HapImageRead.finish buffer dims out = .returned .Bad_Image out := by
  rcases out with ⟨w, ht, frame, fb⟩
  cases dims <;> cases frame <;> simp [HapImageRead.finish] at h ⊢

/-- One turn of the loop over a well-formed section shorter than `2 ^ 32` bytes that fits into
the `buffer_length` the decoder is handed, whatever the remaining count. -/
theorem loop_section_mod (buffer : List Byte) (fuel p n : Nat) (dims : Option Nat)
    (out : ReadOutputs) (s : Section) (hs : s.WellFormed) (hs32 : s.bytes.length < 2 ^ 32)
    (hfit : s.bytes.length ≤ n % 2 ^ 32)
    (hagree : ∀ i, i < n % 2 ^ 32 → i < s.bytes.length →
      load buffer (p + i) = load s.bytes i) :
    HapImageRead.loop buffer (fuel + 1) p n dims out
      = if ((HapImageRead.outputsAfter p s.headerLength s.body.length s.type.val out).frame
              = none
            ∨ HapImageRead.dimensionsAfter p s.headerLength s.type.val dims = none)
            ∧ n - s.bytes.length > 0 then
          HapImageRead.loop buffer fuel (p + s.bytes.length) (n - s.bytes.length)
            (HapImageRead.dimensionsAfter p s.headerLength s.type.val dims)
            (HapImageRead.outputsAfter p s.headerLength s.body.length s.type.val out)
        else
          HapImageRead.finish buffer
            (HapImageRead.dimensionsAfter p s.headerLength s.type.val dims)
            (HapImageRead.outputsAfter p s.headerLength s.body.length s.type.val out) := by
  have hlen := s.length_bytes
  have hsum : (s.headerLength + s.body.length) % 2 ^ 32 = s.bytes.length := by
    rw [← hlen]; exact Nat.mod_eq_of_lt hs32
  rw [HapImageRead.loop,
    read_section_header_of_section buffer p (n % 2 ^ 32) s hs hs32 hagree, if_pos hfit]
  simp only [Nat.add_assoc, hsum]
  rw [← hlen]

/-- The walk over a file cut short: as long as the sections before the last one do not hold
both a dimensions section and a top-level section, the loop returns `Bad_Image` (unless it is
given too few iterations). -/
theorem loop_truncated (k : Nat) :
    ∀ (todo done : List Section) (pre : List Byte) (fuel : Nat) (dims : Option Nat)
      (out : ReadOutputs),
      (∀ s ∈ todo, s.WellFormed) →
      pre.length ≤ k → k < pre.length + (sectionsBytes todo).length →
      (∀ s ∈ todo, s.bytes.length < 2 ^ 32) →
      (dims ≠ none ↔ ∃ s ∈ done, s.IsDimensions) →
      (out.frame ≠ none ↔ ∃ s ∈ done, s.IsTopLevel) →
      ¬ HasBoth (done ++ todo.dropLast) →
      HapImageRead.loop ((pre ++ sectionsBytes todo).take k) fuel pre.length (k - pre.length)
          dims out = .outOfFuel
        ∨ ∃ o, HapImageRead.loop ((pre ++ sectionsBytes todo).take k) fuel pre.length
          (k - pre.length) dims out = .returned .Bad_Image o := by
  intro todo
  induction todo with
  | nil =>
    intro done pre fuel dims out _ hle hlt
    simp [sectionsBytes] at hlt
    omega
  | cons s rest ih =>
    intro done pre fuel dims out hwf hle hlt h32 hd hf hnb
    cases fuel with
    | zero => exact Or.inl rfl
    | succ fuel =>
      have hs := hwf s (List.mem_cons_self _ _)
      have hbytes : sectionsBytes (s :: rest) = s.bytes ++ sectionsBytes rest := rfl
      have hlen : (sectionsBytes (s :: rest)).length
          = s.bytes.length + (sectionsBytes rest).length := by
        rw [hbytes, List.length_append]
      rw [hlen] at hlt
      have hs32 := h32 s (List.mem_cons_self _ _)
      have hmodle : (k - pre.length) % 2 ^ 32 ≤ k - pre.length := Nat.mod_le _ _
      have hagree : ∀ i, i < (k - pre.length) % 2 ^ 32 → i < s.bytes.length →
          load ((pre ++ sectionsBytes (s :: rest)).take k) (pre.length + i)
            = load s.bytes i := by
        intro i hi his
        rw [load_take, if_pos (by omega), hbytes]
        exact load_middle pre s.bytes _ i his
      by_cases hfit : s.bytes.length ≤ (k - pre.length) % 2 ^ 32
      · rw [loop_section_mod _ fuel pre.length (k - pre.length) dims out s hs hs32 hfit
          hagree]
        have hrest : rest ≠ [] := by
          rintro rfl
          simp only [sectionsBytes, List.length_nil] at hlt
          omega
        have hdrop : done ++ (s :: rest).dropLast = (done ++ [s]) ++ rest.dropLast := by
          cases rest with
          | nil => exact absurd rfl hrest
          | cons r rs => simp [List.dropLast]
        rw [hdrop] at hnb
        have hd1 : HapImageRead.dimensionsAfter pre.length s.headerLength s.type.val dims ≠ none
            ↔ ∃ x ∈ done ++ [s], x.IsDimensions := by
          rw [dimensionsAfter_ne_none, hd]
          simp [List.mem_append, or_and_right, exists_or]
        have hf1 : (HapImageRead.outputsAfter pre.length s.headerLength s.body.length
            s.type.val out).frame ≠ none ↔ ∃ x ∈ done ++ [s], x.IsTopLevel := by
          rw [outputsAfter_frame_ne_none, hf]
          simp [List.mem_append, or_and_right, exists_or]
        have hnot : ¬ (HapImageRead.dimensionsAfter pre.length s.headerLength s.type.val dims
              ≠ none
            ∧ (HapImageRead.outputsAfter pre.length s.headerLength s.body.length
              s.type.val out).frame ≠ none) := by
          rintro ⟨h1, h2⟩
          obtain ⟨x, hx, hxd⟩ := hd1.mp h1
          obtain ⟨y, hy, hyt⟩ := hf1.mp h2
          exact hnb ⟨⟨x, List.mem_append_left _ hx, hxd⟩, ⟨y, List.mem_append_left _ hy, hyt⟩⟩
        split
        · have hih := ih (done ++ [s]) (pre ++ s.bytes) fuel _ _
            (fun x hx => hwf x (List.mem_cons_of_mem _ hx))
            (by rw [List.length_append]; omega)
            (by rw [List.length_append]; omega)
            (fun x hx => h32 x (List.mem_cons_of_mem _ hx))
            hd1 hf1 hnb
          rw [List.append_assoc, ← hbytes, List.length_append, Nat.sub_add_eq] at hih
          exact hih
        · exact Or.inr ⟨_, finish_of_not_both _ _ _ hnot⟩
      · rw [HapImageRead.loop,
          read_section_header_of_section _ pre.length ((k - pre.length) % 2 ^ 32) s hs hs32
            hagree,
          if_neg hfit]
        exact Or.inr ⟨_, rfl⟩

/-- When the count left after the signature is a multiple of `2 ^ 32` plus at most 3, the
header decoder is handed a `buffer_length` below 4 and the reader returns `Bad_Image`. -/
theorem HapImageRead_length_wraps (rest : List Byte) (out : ReadOutputs)
    (h : rest.length % 2 ^ 32 < 4) :
    HapImageRead (signature ++ rest) (signature ++ rest).length out
      = .returned .Bad_Image { out with frame := none } := by
  rw [HapImageRead_signature]
  have hf : (signature ++ rest).length = (rest.length + 3) + 1 := by
    rw [List.length_append]
    have : signature.length = 4 := rfl
    omega
  rw [hf, HapImageRead.loop]
  unfold hapimage_read_section_header
  rw [if_pos h]

/-- The decoder on a compact header: three bytes holding a non-zero length and the type. -/
theorem read_section_header_compact {buffer : List Byte} {p r L t : Nat}
    (hL0 : 0 < L) (hL : L < 2 ^ 24) (hr : 4 + L ≤ r)
    (h0 : load buffer p = some (L % 256))
    (h1 : load buffer (p + 1) = some (L / 2 ^ 8 % 256))
    (h2 : load buffer (p + 2) = some (L / 2 ^ 16 % 256))
    (h3 : load buffer (p + 3) = some t) :
    hapimage_read_section_header buffer p r = .ok 4 L t := by
  have hval : (L % 256 + L / 2 ^ 8 % 256 * 2 ^ 8 + L / 2 ^ 16 % 256 * 2 ^ 16) % 2 ^ 32 = L := by
    omega
  have hmod : (4 + L) % 2 ^ 32 = 4 + L := by omega
  unfold hapimage_read_section_header
  rw [if_neg (by omega), read_3_byte_uint_eq h0 h1 h2, hval]
  simp only [h3]
  rw [if_neg (by omega), hmod, if_neg (by omega)]

/-- The decoder on an extended header: three zero bytes, the type, and a 32-bit length. -/
theorem read_section_header_extended {buffer : List Byte} {p r L t : Nat}
    (hL : L < 2 ^ 32 - 8) (hr : 8 + L ≤ r)
    (h0 : load buffer p = some 0) (h1 : load buffer (p + 1) = some 0)
    (h2 : load buffer (p + 2) = some 0) (h3 : load buffer (p + 3) = some t)
    (h4 : load buffer (p + 4) = some (L % 256))
    (h5 : load buffer (p + 4 + 1) = some (L / 2 ^ 8 % 256))
    (h6 : load buffer (p + 4 + 2) = some (L / 2 ^ 16 % 256))
    (h7 : load buffer (p + 4 + 3) = some (L / 2 ^ 24 % 256)) :
    hapimage_read_section_header buffer p r = .ok 8 L t := by
  have hval : (L % 256 + L / 2 ^ 8 % 256 * 2 ^ 8 + L / 2 ^ 16 % 256 * 2 ^ 16
      + L / 2 ^ 24 % 256 * 2 ^ 24) % 2 ^ 32 = L := by omega
  have hmod : (8 + L) % 2 ^ 32 = 8 + L := by omega
  unfold hapimage_read_section_header
  rw [if_neg (by omega), read_3_byte_uint_eq h0 h1 h2]
  simp only [Nat.zero_mul, Nat.add_zero, Nat.zero_mod, if_true]
  rw [if_neg (by omega), read_4_byte_uint_eq h4 h5 h6 h7, hval]
  simp only [h3]
  rw [hmod, if_neg (by omega)]

/-- Loading from an explicit list of bytes standing at `pre.length`. -/
theorem load_cons_at (pre : List Byte) (b : Byte) (post : List Byte) :
    load (pre ++ b :: post) pre.length = some b.val :=
  (load_append_right pre (b :: post) 0).trans (by simp [load])

theorem load_at_1 (pre : List Byte) (b0 b1 : Byte) (post : List Byte) :
    load (pre ++ b0 :: b1 :: post) (pre.length + 1) = some b1.val := by
  have := load_cons_at (pre ++ [b0]) b1 post
  simpa using this

theorem load_at_2 (pre : List Byte) (b0 b1 b2 : Byte) (post : List Byte) :
    load (pre ++ b0 :: b1 :: b2 :: post) (pre.length + 2) = some b2.val := by
  have := load_cons_at (pre ++ [b0, b1]) b2 post
  simpa using this

theorem load_at_3 (pre : List Byte) (b0 b1 b2 b3 : Byte) (post : List Byte) :
    load (pre ++ b0 :: b1 :: b2 :: b3 :: post) (pre.length + 3) = some b3.val := by
  have := load_cons_at (pre ++ [b0, b1, b2]) b3 post
  simpa using this

/-- A store to the byte standing at `pre.length`. -/
theorem store_cons_at (pre : List Byte) (b : Byte) (post : List Byte) (v : Nat) :
    store (pre ++ b :: post) pre.length v = some (pre ++ toByte v :: post) := by
  simp [store, List.set_append]

theorem store_at_1 (pre : List Byte) (b0 b1 : Byte) (post : List Byte) (v : Nat) :
    store (pre ++ b0 :: b1 :: post) (pre.length + 1) v
      = some (pre ++ b0 :: toByte v :: post) := by
  have := store_cons_at (pre ++ [b0]) b1 post v
  simpa using this

theorem store_at_2 (pre : List Byte) (b0 b1 b2 : Byte) (post : List Byte) (v : Nat) :
    store (pre ++ b0 :: b1 :: b2 :: post) (pre.length + 2) v
      = some (pre ++ b0 :: b1 :: toByte v :: post) := by
  have := store_cons_at (pre ++ [b0, b1]) b2 post v
  simpa using this

theorem store_at_3 (pre : List Byte) (b0 b1 b2 b3 : Byte) (post : List Byte) (v : Nat) :
    store (pre ++ b0 :: b1 :: b2 :: b3 :: post) (pre.length + 3) v
      = some (pre ++ b0 :: b1 :: b2 :: toByte v :: post) := by
  have := store_cons_at (pre ++ [b0, b1, b2]) b3 post v
  simpa using this

/-- What `hapimage_write_section_header` stores: four bytes, the rest of the buffer as it
was. -/
theorem write_section_header_eq (pre post : List Byte) (b0 b1 b2 b3 : Byte) (L t : Nat) :
    hapimage_write_section_header (pre ++ b0 :: b1 :: b2 :: b3 :: post) pre.length L t
      = some (pre ++ toByte L :: toByte (L / 2 ^ 8) :: toByte (L / 2 ^ 16) :: toByte t
          :: post) := by
  unfold hapimage_write_section_header hapimage_write_3_byte_uint
  rw [store_cons_at]
  simp only [store_at_1]
  simp only [store_at_2]
  simp only [store_at_3, toByte_and_0xFF, toByte_shift_and_0xFF, Nat.shiftRight_eq_div_pow]

/-- A null output buffer or a null bytes-used destination gives `Bad_Arguments`, whatever the
capacity, and nothing is written. -/
theorem HapImageWrite_argument_check_aux (width height cap : Nat)
    (outputBuffer : Option (List Byte)) (used : Option Nat)
    (hnull : outputBuffer = none ∨ used = none) :
    HapImageWrite width height outputBuffer cap used
      = some ⟨.Bad_Arguments, outputBuffer, used⟩ := by
  rcases hnull with h | h
  · subst h
    rfl
  · subst h
    cases outputBuffer <;> rfl

theorem outputsAfter_width (p hl sl ty : Nat) (out : ReadOutputs) :
    (HapImageRead.outputsAfter p hl sl ty out).width = out.width := by
  unfold HapImageRead.outputsAfter
  split
  · rfl
  · split <;> rfl

theorem outputsAfter_height (p hl sl ty : Nat) (out : ReadOutputs) :
    (HapImageRead.outputsAfter p hl sl ty out).height = out.height := by
  unfold HapImageRead.outputsAfter
  split
  · rfl
  · split <;> rfl

/-- When the code after the loop returns an error, it has written nothing. -/
theorem finish_error {buffer : List Byte} {dims : Option Nat} {out out1 : ReadOutputs}
    {r : HapImageResult} (h : HapImageRead.finish buffer dims out = .returned r out1)
    (hr : r ≠ .No_Error) : out1 = out := by
  unfold HapImageRead.finish at h
  split at h
  · split at h
    · cases h
      exact absurd rfl hr
    · cases h
  · cases h
    rfl

/-- When the loop returns an error, `*width` and `*height` are as they were. -/
theorem loop_error_keeps_dimensions (buffer : List Byte) :
    ∀ (fuel p n : Nat) (dims : Option Nat) (out out1 : ReadOutputs) (r : HapImageResult),
      HapImageRead.loop buffer fuel p n dims out = .returned r out1 → r ≠ .No_Error →
      out1.width = out.width ∧ out1.height = out.height := by
  intro fuel
  induction fuel with
  | zero =>
    intro p n dims out out1 r h
    cases h
  | succ fuel ih =>
    intro p n dims out out1 r h hr
    rw [HapImageRead.loop] at h
    cases hdr : hapimage_read_section_header buffer p (n % 2 ^ 32) with
    | outOfBounds => rw [hdr] at h; cases h
    | failed r1 =>
      rw [hdr] at h
      cases h
      exact ⟨rfl, rfl⟩
    | ok hl sl ty =>
      rw [hdr] at h
      simp only [] at h
      split at h
      · obtain ⟨hw, hh⟩ := ih _ _ _ _ _ _ h hr
        rw [outputsAfter_width] at hw
        rw [outputsAfter_height] at hh
        exact ⟨hw, hh⟩
      · rw [finish_error h hr, outputsAfter_width, outputsAfter_height]
        exact ⟨rfl, rfl⟩

/-- A buffer of at least four bytes that does not open with the signature fails the
signature comparison. -/
theorem signatureMismatch_of_take_ne (buf : List Byte) (hlen : 4 ≤ buf.length)
    (hsig : buf.take 4 ≠ [0x88, 0x48, 0x61, 0x70]) :
    HapImageRead.signatureMismatch buf = some true := by
  rcases buf with _ | ⟨b0, _ | ⟨b1, _ | ⟨b2, _ | ⟨b3, rest⟩⟩⟩⟩
  all_goals try (exfalso; simp at hlen; done)
  have hne : ¬ (b0.val = 0x88 ∧ b1.val = 0x48 ∧ b2.val = 0x61 ∧ b3.val = 0x70) := by
    rintro ⟨h0, h1, h2, h3⟩
    apply hsig
    have e0 : b0 = 0x88 := Fin.ext h0
    have e1 : b1 = 0x48 := Fin.ext h1
    have e2 : b2 = 0x61 := Fin.ext h2
    have e3 : b3 = 0x70 := Fin.ext h3
    simp [e0, e1, e2, e3]
  simp only [HapImageRead.signatureMismatch, load, List.getElem?_cons_zero,
    List.getElem?_cons_succ]
  by_cases h0 : b0.val = 0x88
  · by_cases h1 : b1.val = 0x48
    · by_cases h2 : b2.val = 0x61
      · have h3 : b3.val ≠ 0x70 := fun h3 => hne ⟨h0, h1, h2, h3⟩
        simp [h0, h1, h2, h3]
      · simp [h0, h1, h2]
    · simp [h0, h1]
  · simp [h0]

/-- The only error code the header decoder returns is `Bad_Image`. -/
theorem read_section_header_failed {buffer : List Byte} {p r : Nat} {res : HapImageResult}
    (h : hapimage_read_section_header buffer p r = .failed res) : res = .Bad_Image := by
  unfold hapimage_read_section_header at h
  split at h
  · cases h; rfl
  · split at h
    · cases h
    · split at h
      · split at h
        · cases h; rfl
        · split at h
          · cases h
          · split at h
            · cases h
            · split at h
              · cases h; rfl
              · cases h
      · split at h
        · cases h
        · split at h
          · cases h; rfl
          · cases h

theorem sectionsBytes_append (a b : List Section) :
    sectionsBytes (a ++ b) = sectionsBytes a ++ sectionsBytes b := by
  induction a with
  | nil => rfl
  | cons s rest ih => simp [sectionsBytes, ih]

theorem Section.headerLength_ge (s : Section) : 4 ≤ s.headerLength := by
  unfold Section.headerLength
  split <;> omega

theorem Section.length_bytes_ge (s : Section) : 4 ≤ s.bytes.length := by
  rw [s.length_bytes]
  have := s.headerLength_ge
  omega

theorem length_le_sectionsBytes (secs : List Section) :
    secs.length ≤ (sectionsBytes secs).length := by
  induction secs with
  | nil => simp [sectionsBytes]
  | cons s rest ih =>
    have := s.length_bytes_ge
    simp only [sectionsBytes, List.length_append, List.length_cons]
    omega

/-- Whether `dimensions` is set after a walk over `secs`. -/
theorem walkDimensions_ne_none (secs : List Section) :
    ∀ (pos : Nat) (dims : Option Nat),
      walkDimensions pos secs dims ≠ none ↔ (dims ≠ none ∨ ∃ s ∈ secs, s.IsDimensions) := by
  induction secs with
  | nil => intro pos dims; simp [walkDimensions]
  | cons s rest ih =>
    intro pos dims
    rw [walkDimensions, ih, dimensionsAfter_ne_none]
    simp only [List.mem_cons, exists_eq_or_imp]
    tauto

/-- Whether `*frame` is set after a walk over `secs`. -/
theorem walkOutputs_frame_ne_none (secs : List Section) :
    ∀ (pos : Nat) (out : ReadOutputs),
      (walkOutputs pos secs out).frame ≠ none
        ↔ (out.frame ≠ none ∨ ∃ s ∈ secs, s.IsTopLevel) := by
  induction secs with
  | nil => intro pos out; simp [walkOutputs]
  | cons s rest ih =>
    intro pos out
    rw [walkOutputs, ih, outputsAfter_frame_ne_none]
    simp only [List.mem_cons, exists_eq_or_imp]
    tauto

/-- The walk up to and including the first section that completes the pair: the loop goes
over every section of `init`, leaves after `last`, and runs the code after the loop. -/
theorem walk_complete (last : Section) (tail : List Byte) :
    ∀ (init done : List Section) (pre : List Byte) (fuel : Nat) (dims : Option Nat)
      (out : ReadOutputs),
      (∀ s ∈ init ++ [last], s.WellFormed) →
      (sectionsBytes (init ++ [last]) ++ tail).length < 2 ^ 32 →
      init.length < fuel →
      (dims ≠ none ↔ ∃ s ∈ done, s.IsDimensions) →
      (out.frame ≠ none ↔ ∃ s ∈ done, s.IsTopLevel) →
      ¬ HasBoth (done ++ init) → HasBoth (done ++ (init ++ [last])) →
      HapImageRead.loop (pre ++ (sectionsBytes (init ++ [last]) ++ tail)) fuel pre.length
          (sectionsBytes (init ++ [last]) ++ tail).length dims out
        = HapImageRead.finish (pre ++ (sectionsBytes (init ++ [last]) ++ tail))
            (walkDimensions pre.length (init ++ [last]) dims)
            (walkOutputs pre.length (init ++ [last]) out) := by
  intro init
  induction init with
  | nil =>
    intro done pre fuel dims out hwf h32 hfuel hd hf _ hboth
    obtain ⟨fuel, rfl⟩ : ∃ f, fuel = f + 1 := ⟨fuel - 1, by simp at hfuel; omega⟩
    have hs := hwf last (by simp)
    have hb : sectionsBytes ([] ++ [last]) ++ tail = last.bytes ++ tail := by
      simp [sectionsBytes]
    rw [hb] at h32 ⊢
    rw [loop_section _ fuel pre.length _ dims out last hs h32
      (by rw [List.length_append]; omega)
      (fun i _ hi => load_middle pre last.bytes tail i hi)]
    have hd1 : HapImageRead.dimensionsAfter pre.length last.headerLength last.type.val dims
        ≠ none := by
      rw [dimensionsAfter_ne_none, hd]
      obtain ⟨⟨x, hx, hxd⟩, _⟩ := hboth
      simp only [List.nil_append, List.mem_append, List.mem_singleton] at hx
      rcases hx with hx | rfl
      · exact Or.inl ⟨x, hx, hxd⟩
      · exact Or.inr hxd
    have hf1 : (HapImageRead.outputsAfter pre.length last.headerLength last.body.length
        last.type.val out).frame ≠ none := by
      rw [outputsAfter_frame_ne_none, hf]
      obtain ⟨_, ⟨x, hx, hxt⟩⟩ := hboth
      simp only [List.nil_append, List.mem_append, List.mem_singleton] at hx
      rcases hx with hx | rfl
      · exact Or.inl ⟨x, hx, hxt⟩
      · exact Or.inr hxt
    rw [if_neg (by
      rintro ⟨hor, _⟩
      rcases hor with h1 | h1
      · exact hf1 h1
      · exact hd1 h1)]
    rfl
  | cons s rest ih =>
    intro done pre fuel dims out hwf h32 hfuel hd hf hnb hboth
    obtain ⟨fuel, rfl⟩ : ∃ f, fuel = f + 1 := ⟨fuel - 1, by simp at hfuel; omega⟩
    have hs := hwf s (by simp)
    have hb : sectionsBytes (s :: rest ++ [last]) ++ tail
        = s.bytes ++ (sectionsBytes (rest ++ [last]) ++ tail) := by
      simp [sectionsBytes]
    have hlastlen : 4 ≤ (sectionsBytes (rest ++ [last]) ++ tail).length := by
      have := last.length_bytes_ge
      rw [sectionsBytes_append]
      simp only [sectionsBytes, List.length_append, List.append_nil]
      omega
    rw [hb] at h32 ⊢
    rw [loop_section _ fuel pre.length _ dims out s hs h32
      (by rw [List.length_append]; omega)
      (fun i _ hi => load_middle pre s.bytes _ i hi)]
    have hd1 : HapImageRead.dimensionsAfter pre.length s.headerLength s.type.val dims ≠ none
        ↔ ∃ x ∈ done ++ [s], x.IsDimensions := by
      rw [dimensionsAfter_ne_none, hd]
      simp [List.mem_append, or_and_right, exists_or]
    have hf1 : (HapImageRead.outputsAfter pre.length s.headerLength s.body.length
        s.type.val out).frame ≠ none ↔ ∃ x ∈ done ++ [s], x.IsTopLevel := by
      rw [outputsAfter_frame_ne_none, hf]
      simp [List.mem_append, or_and_right, exists_or]
    have hassoc : done ++ s :: rest = (done ++ [s]) ++ rest := by simp
    rw [hassoc] at hnb
    have hnot : (HapImageRead.outputsAfter pre.length s.headerLength s.body.length
          s.type.val out).frame = none
        ∨ HapImageRead.dimensionsAfter pre.length s.headerLength s.type.val dims = none := by
      by_contra hcon
      push_neg at hcon
      obtain ⟨x, hx, hxd⟩ := hd1.mp hcon.2
      obtain ⟨y, hy, hyt⟩ := hf1.mp hcon.1
      exact hnb ⟨⟨x, List.mem_append_left _ hx, hxd⟩, ⟨y, List.mem_append_left _ hy, hyt⟩⟩
    have hrem : (s.bytes ++ (sectionsBytes (rest ++ [last]) ++ tail)).length - s.bytes.length
        = (sectionsBytes (rest ++ [last]) ++ tail).length := by
      rw [List.length_append]; omega
    rw [if_pos ⟨hnot, by rw [hrem]; omega⟩, hrem]
    have hih := ih (done ++ [s]) (pre ++ s.bytes) fuel _ _
      (fun x hx => hwf x (by simp at hx ⊢; tauto))
      (by rw [List.length_append] at h32; omega)
      (by simp at hfuel; omega)
      hd1 hf1 hnb (by simpa using hboth)
    rw [List.append_assoc, List.length_append] at hih
    rw [hih]
    rfl

/-- The walk over a whole file that never completes the pair: the loop goes over every
section and the reader returns `Bad_Image`. -/
theorem walk_incomplete :
    ∀ (secs done : List Section) (pre : List Byte) (fuel : Nat) (dims : Option Nat)
      (out : ReadOutputs),
      (∀ s ∈ secs, s.WellFormed) →
      (sectionsBytes secs).length < 2 ^ 32 →
      secs.length < fuel →
      (dims ≠ none ↔ ∃ s ∈ done, s.IsDimensions) →
      (out.frame ≠ none ↔ ∃ s ∈ done, s.IsTopLevel) →
      ¬ HasBoth (done ++ secs) →
      HapImageRead.loop (pre ++ sectionsBytes secs) fuel pre.length
          (sectionsBytes secs).length dims out
        = .returned .Bad_Image (walkOutputs pre.length secs out) := by
  intro secs
  induction secs with
  | nil =>
    intro done pre fuel dims out _ _ hfuel _ _ _
    obtain ⟨fuel, rfl⟩ : ∃ f, fuel = f + 1 := ⟨fuel - 1, by simp at hfuel; omega⟩
    exact loop_nothing_left _ _ _ _ _
  | cons s rest ih =>
    intro done pre fuel dims out hwf h32 hfuel hd hf hnb
    obtain ⟨fuel, rfl⟩ : ∃ f, fuel = f + 1 := ⟨fuel - 1, by simp at hfuel; omega⟩
    have hs := hwf s (by simp)
    have hb : sectionsBytes (s :: rest) = s.bytes ++ sectionsBytes rest := rfl
    rw [hb] at h32 ⊢
    rw [loop_section _ fuel pre.length _ dims out s hs h32
      (by rw [List.length_append]; omega)
      (fun i _ hi => load_middle pre s.bytes _ i hi)]
    have hd1 : HapImageRead.dimensionsAfter pre.length s.headerLength s.type.val dims ≠ none
        ↔ ∃ x ∈ done ++ [s], x.IsDimensions := by
      rw [dimensionsAfter_ne_none, hd]
      simp [List.mem_append, or_and_right, exists_or]
    have hf1 : (HapImageRead.outputsAfter pre.length s.headerLength s.body.length
        s.type.val out).frame ≠ none ↔ ∃ x ∈ done ++ [s], x.IsTopLevel := by
      rw [outputsAfter_frame_ne_none, hf]
      simp [List.mem_append, or_and_right, exists_or]
    have hassoc : done ++ s :: rest = (done ++ [s]) ++ rest := by simp
    rw [hassoc] at hnb
    have hnot : ¬ (HapImageRead.dimensionsAfter pre.length s.headerLength s.type.val dims
          ≠ none
        ∧ (HapImageRead.outputsAfter pre.length s.headerLength s.body.length
          s.type.val out).frame ≠ none) := by
      rintro ⟨h1, h2⟩
      obtain ⟨x, hx, hxd⟩ := hd1.mp h1
      obtain ⟨y, hy, hyt⟩ := hf1.mp h2
      exact hnb ⟨⟨x, List.mem_append_left _ hx, hxd⟩, ⟨y, List.mem_append_left _ hy, hyt⟩⟩
    have hrem : (s.bytes ++ sectionsBytes rest).length - s.bytes.length
        = (sectionsBytes rest).length := by
      rw [List.length_append]; omega
    rw [hrem]
    split
    · have hih := ih (done ++ [s]) (pre ++ s.bytes) fuel _ _
        (fun x hx => hwf x (List.mem_cons_of_mem _ hx))
        (by rw [List.length_append] at h32; omega)
        (by simp at hfuel; omega)
        hd1 hf1 hnb
      rw [List.append_assoc, List.length_append] at hih
      rw [hih]
      rfl
    · rename_i hc
      have hzero : (sectionsBytes rest).length = 0 := by
        by_contra hpos
        apply hc
        refine ⟨?_, by omega⟩
        by_contra hcon
        push_neg at hcon
        exact hnot ⟨hcon.2, hcon.1⟩
      have hrest : rest = [] := by
        have := length_le_sectionsBytes rest
        exact List.length_eq_zero.mp (by omega)
      subst hrest
      rw [finish_of_not_both _ _ _ hnot]
      rfl

/-- Sections that are not top-level leave the output locations alone. -/
theorem walkOutputs_of_no_top_level (secs : List Section) :
    ∀ (pos : Nat) (out : ReadOutputs), (∀ x ∈ secs, ¬ x.IsTopLevel) →
      walkOutputs pos secs out = out := by
  induction secs with
  | nil => intro pos out _; rfl
  | cons s rest ih =>
    intro pos out h
    have hs : ¬ hapimage_is_top_level_section s.type.val ≠ 0 := h s (by simp)
    have hstep : HapImageRead.outputsAfter pos s.headerLength s.body.length s.type.val out
        = out := by
      unfold HapImageRead.outputsAfter
      split
      · rfl
      · rfl
    rw [walkOutputs, hstep]
    exact ih _ _ (fun x hx => h x (List.mem_cons_of_mem _ hx))

/-- Sections that are not dimensions sections leave `dimensions` alone. -/
theorem walkDimensions_of_no_dimensions (secs : List Section) :
    ∀ (pos : Nat) (dims : Option Nat), (∀ x ∈ secs, ¬ x.IsDimensions) →
      walkDimensions pos secs dims = dims := by
  induction secs with
  | nil => intro pos dims _; rfl
  | cons s rest ih =>
    intro pos dims h
    have hs : ¬ s.type.val = kHapSectionDimensions := h s (by simp)
    have hstep : HapImageRead.dimensionsAfter pos s.headerLength s.type.val dims = dims := by
      unfold HapImageRead.dimensionsAfter
      rw [if_neg hs]
    rw [walkDimensions, hstep]
    exact ih _ _ (fun x hx => h x (List.mem_cons_of_mem _ hx))

theorem walkOutputs_width_height (secs : List Section) :
    ∀ (pos : Nat) (out : ReadOutputs),
      (walkOutputs pos secs out).width = out.width
        ∧ (walkOutputs pos secs out).height = out.height := by
  induction secs with
  | nil => intro pos out; exact ⟨rfl, rfl⟩
  | cons s rest ih =>
    intro pos out
    rw [walkOutputs]
    obtain ⟨h1, h2⟩ := ih (pos + s.bytes.length)
      (HapImageRead.outputsAfter pos s.headerLength s.body.length s.type.val out)
    rw [h1, h2, outputsAfter_width, outputsAfter_height]
    exact ⟨rfl, rfl⟩

/-- After a walk, `*frame` and `*frameBytes` are those of the last top-level section walked
over. -/
theorem walkOutputs_last (f : Section) (post : List Section) (hf : f.IsTopLevel)
    (hfl : f.bytes.length < 2 ^ 32) (hpost : ∀ x ∈ post, ¬ x.IsTopLevel) :
    ∀ (pre : List Section) (pos : Nat) (out : ReadOutputs),
      walkOutputs pos (pre ++ f :: post) out
        = ⟨out.width, out.height, some (pos + (sectionsBytes pre).length), f.bytes.length⟩ := by
  intro pre
  induction pre with
  | nil =>
    intro pos out
    have h5 : f.type.val ≠ kHapSectionDimensions := by
      intro h5
      apply hf
      rw [h5]
      decide
    have hm : (f.headerLength + f.body.length) % 2 ^ 32 = f.bytes.length := by
      rw [← f.length_bytes]; exact Nat.mod_eq_of_lt hfl
    have hstep : HapImageRead.outputsAfter pos f.headerLength f.body.length f.type.val out
        = ⟨out.width, out.height, some pos, f.bytes.length⟩ := by
      have hf1 : hapimage_is_top_level_section f.type.val ≠ 0 := hf
      unfold HapImageRead.outputsAfter
      rw [if_neg h5, if_pos hf1, hm]
    simp only [List.nil_append, walkOutputs, hstep, sectionsBytes, List.length_nil,
      Nat.add_zero]
    exact walkOutputs_of_no_top_level post _ _ hpost
  | cons a pre ih =>
    intro pos out
    rw [List.cons_append, walkOutputs, ih, outputsAfter_width, outputsAfter_height,
      sectionsBytes, List.length_append, Nat.add_assoc]

/-- After a walk, `dimensions` points at the body of the last dimensions section walked
over. -/
theorem walkDimensions_last (d : Section) (post : List Section) (hd : d.IsDimensions)
    (hpost : ∀ x ∈ post, ¬ x.IsDimensions) :
    ∀ (pre : List Section) (pos : Nat) (dims : Option Nat),
      walkDimensions pos (pre ++ d :: post) dims
        = some (pos + (sectionsBytes pre).length + d.headerLength) := by
  intro pre
  induction pre with
  | nil =>
    intro pos dims
    have hstep : HapImageRead.dimensionsAfter pos d.headerLength d.type.val dims
        = some (pos + d.headerLength) := by
      have hd1 : d.type.val = kHapSectionDimensions := hd
      unfold HapImageRead.dimensionsAfter
      rw [if_pos hd1]
    simp only [List.nil_append, walkDimensions, hstep, sectionsBytes, List.length_nil,
      Nat.add_zero]
    exact walkDimensions_of_no_dimensions post _ _ hpost
  | cons a pre ih =>
    intro pos dims
    rw [List.cons_append, walkDimensions, ih, sectionsBytes, List.length_append]
    congr 1
    omega

/-- A sequence that holds both kinds has a first section that completes the pair. -/
theorem exists_first_complete (secs : List Section) (h : HasBoth secs) :
    ∃ init last rest, secs = init ++ last :: rest ∧ ¬ HasBoth init
      ∧ HasBoth (init ++ [last]) := by
  induction secs using List.reverseRecOn with
  | nil =>
    obtain ⟨⟨x, hx, _⟩, _⟩ := h
    simp at hx
  | append_singleton l a ih =>
    by_cases hl : HasBoth l
    · obtain ⟨init, last, rest, rfl, h1, h2⟩ := ih hl
      exact ⟨init, last, rest ++ [a], by simp, h1, h2⟩
    · exact ⟨l, a, [], rfl, hl, h⟩

/-- Four bytes inside the buffer can be read. -/
theorem read_4_byte_uint_in_bounds (buffer : List Byte) (p : Nat)
    (h : p + 4 ≤ buffer.length) : ∃ v, hapimage_read_4_byte_uint buffer p = some v := by
  have l (i : Nat) (hi : i < buffer.length) : ∃ v, load buffer i = some v := by
    unfold load
    rw [List.getElem?_eq_getElem hi]
    exact ⟨_, rfl⟩
  obtain ⟨v0, h0⟩ := l p (by omega)
  obtain ⟨v1, h1⟩ := l (p + 1) (by omega)
  obtain ⟨v2, h2⟩ := l (p + 2) (by omega)
  obtain ⟨v3, h3⟩ := l (p + 3) (by omega)
  exact ⟨_, read_4_byte_uint_eq h0 h1 h2 h3⟩

/-- When every dimensions section has a body of at least eight bytes, the eight bytes that
`dimensions` points at after a walk lie inside the sections walked over. -/
theorem walkDimensions_bound (secs : List Section)
    (hdim : ∀ s ∈ secs, s.IsDimensions → 8 ≤ s.body.length) :
    ∀ (pos : Nat) (dims : Option Nat), (∀ d0, dims = some d0 → d0 + 8 ≤ pos) →
      ∀ d, walkDimensions pos secs dims = some d → d + 8 ≤ pos + (sectionsBytes secs).length := by
  induction secs with
  | nil =>
    intro pos dims h0 d hd
    have := h0 d hd
    simp only [sectionsBytes, List.length_nil]
    omega
  | cons s rest ih =>
    intro pos dims h0 d hd
    rw [walkDimensions] at hd
    have hstep : ∀ d0, HapImageRead.dimensionsAfter pos s.headerLength s.type.val dims = some d0
        → d0 + 8 ≤ pos + s.bytes.length := by
      intro d0 hd0
      unfold HapImageRead.dimensionsAfter at hd0
      split at hd0
      · rename_i h5
        have := hdim s (by simp) h5
        cases hd0
        rw [s.length_bytes]
        omega
      · have := h0 d0 hd0
        omega
    have := ih (fun x hx => hdim x (List.mem_cons_of_mem _ hx)) _ _ hstep d hd
    rw [sectionsBytes, List.length_append]
    omega

/-- The reader on a file whose sections hold both kinds: the walk leaves at the first section
that completes the pair and the code after the loop runs on the state reached there. -/
theorem HapImageRead_of_first_complete (init : List Section) (last : Section)
    (tail : List Byte) (out : ReadOutputs)
    (hwf : ∀ s ∈ init ++ [last], s.WellFormed)
    (hcount : (sectionsBytes (init ++ [last]) ++ tail).length < 2 ^ 32)
    (hearly : ¬ HasBoth init) (hboth : HasBoth (init ++ [last])) :
    HapImageRead (signature ++ (sectionsBytes (init ++ [last]) ++ tail))
        (signature ++ (sectionsBytes (init ++ [last]) ++ tail)).length out
      = HapImageRead.finish (signature ++ (sectionsBytes (init ++ [last]) ++ tail))
          (walkDimensions 4 (init ++ [last]) none)
          (walkOutputs 4 (init ++ [last]) { out with frame := none }) := by
  rw [HapImageRead_signature]
  have hfuel : init.length
      < (signature ++ (sectionsBytes (init ++ [last]) ++ tail)).length := by
    have h1 := length_le_sectionsBytes (init ++ [last])
    simp only [List.length_append, List.length_singleton] at h1 ⊢
    omega
  exact walk_complete last tail init [] signature _ none { out with frame := none } hwf hcount
    hfuel (by simp) (by simp) (by simpa using hearly) (by simpa using hboth)

theorem finish_of_both {buffer : List Byte} {d w h : Nat} {out : ReadOutputs}
    (hf : out.frame ≠ none) (hw : hapimage_read_4_byte_uint buffer d = some w)
    (hh : hapimage_read_4_byte_uint buffer (d + 4) = some h) :
    HapImageRead.finish buffer (some d) out
      = .returned .No_Error { out with width := w, height := h } := by
  rcases out with ⟨w0, h0, frame, fb⟩
  cases frame with
  | none => exact absurd rfl hf
  | some f => simp only [HapImageRead.finish, hw, hh]

/-- The reader on a file whose sections hold both kinds, every dimensions section with a body
of at least eight bytes: `No_Error`. -/
theorem HapImageRead_of_HasBoth (secs : List Section) (out : ReadOutputs)
    (hwf : ∀ s ∈ secs, s.WellFormed)
    (hdim : ∀ s ∈ secs, s.IsDimensions → 8 ≤ s.body.length)
    (hcount : (sectionsBytes secs).length < 2 ^ 32) (hboth : HasBoth secs) :
    ∃ o, HapImageRead (fileBytes secs) (fileBytes secs).length out = .returned .No_Error o := by
  obtain ⟨init, last, rest, rfl, hearly, hcomplete⟩ := exists_first_complete secs hboth
  have hsplit : init ++ last :: rest = (init ++ [last]) ++ rest := by simp
  have hbytes : sectionsBytes (init ++ last :: rest)
      = sectionsBytes (init ++ [last]) ++ sectionsBytes rest := by
    rw [hsplit, sectionsBytes_append]
  have hbuf : fileBytes (init ++ last :: rest)
      = signature ++ (sectionsBytes (init ++ [last]) ++ sectionsBytes rest) := by
    unfold fileBytes
    rw [hbytes]
  rw [hbuf]
  rw [hbytes] at hcount
  have hwf1 : ∀ s ∈ init ++ [last], s.WellFormed := fun s hs =>
    hwf s (by rw [hsplit]; exact List.mem_append_left _ hs)
  have hdim1 : ∀ s ∈ init ++ [last], s.IsDimensions → 8 ≤ s.body.length := fun s hs =>
    hdim s (by rw [hsplit]; exact List.mem_append_left _ hs)
  rw [HapImageRead_of_first_complete init last (sectionsBytes rest) out hwf1 hcount hearly
    hcomplete]
  have hd : walkDimensions 4 (init ++ [last]) none ≠ none :=
    (walkDimensions_ne_none _ _ _).mpr (Or.inr hcomplete.1)
  have hf : (walkOutputs 4 (init ++ [last]) { out with frame := none }).frame ≠ none :=
    (walkOutputs_frame_ne_none _ _ _).mpr (Or.inr hcomplete.2)
  obtain ⟨d, hdd⟩ := Option.ne_none_iff_exists'.mp hd
  have hbound := walkDimensions_bound (init ++ [last]) hdim1 4 none
    (fun d0 h0 => by cases h0) d hdd
  have hlen : (signature ++ (sectionsBytes (init ++ [last]) ++ sectionsBytes rest)).length
      = 4 + ((sectionsBytes (init ++ [last])).length + (sectionsBytes rest).length) := by
    rw [List.length_append, List.length_append]
    rfl
  obtain ⟨w, hw⟩ := read_4_byte_uint_in_bounds
    (signature ++ (sectionsBytes (init ++ [last]) ++ sectionsBytes rest)) d (by omega)
  obtain ⟨h, hh⟩ := read_4_byte_uint_in_bounds
    (signature ++ (sectionsBytes (init ++ [last]) ++ sectionsBytes rest)) (d + 4) (by omega)
  rw [hdd, finish_of_both hf hw hh]
  exact ⟨_, rfl⟩

/-- The reader on a file whose sections do not hold both kinds: `Bad_Image`. -/
theorem HapImageRead_of_not_HasBoth (secs : List Section) (out : ReadOutputs)
    (hwf : ∀ s ∈ secs, s.WellFormed)
    (hcount : (sectionsBytes secs).length < 2 ^ 32) (hnb : ¬ HasBoth secs) :
    ∃ o, HapImageRead (fileBytes secs) (fileBytes secs).length out
      = .returned .Bad_Image o := by
  unfold fileBytes
  rw [HapImageRead_signature]
  have hfuel : secs.length < (signature ++ sectionsBytes secs).length := by
    have h1 := length_le_sectionsBytes secs
    have h2 : signature.length = 4 := rfl
    rw [List.length_append, h2]
    omega
  exact ⟨_, walk_incomplete secs [] signature _ none { out with frame := none } hwf hcount
    hfuel (by simp) (by simp) (by simpa using hnb)⟩

/-- The classifier returns 1 whenever it does not return 0. -/
theorem is_top_level_eq_one {t : Nat} (h : hapimage_is_top_level_section t ≠ 0) :
    hapimage_is_top_level_section t = 1 := by
  unfold hapimage_is_top_level_section at h ⊢
  split
  · rfl
  · rename_i hm
    rw [if_neg hm] at h
    simp only [] at h ⊢
    split
    · rfl
    · rename_i hc
      rw [if_neg hc] at h
      exact absurd rfl h

/-- The signature comparison on a buffer that opens with the signature. -/
theorem signatureMismatch_signature (rest : List Byte) :
    HapImageRead.signatureMismatch (signature ++ rest) = some false := by
  have h0 : load (signature ++ rest) 0 = some 0x88 := rfl
  have h1 : load (signature ++ rest) 1 = some 0x48 := rfl
  have h2 : load (signature ++ rest) 2 = some 0x61 := rfl
  have h3 : load (signature ++ rest) 3 = some 0x70 := by simp [signature, load]; rfl
  simp [HapImageRead.signatureMismatch, h0, h1, h2, h3]

/-- The code after the loop returns `No_Error` or `Bad_Image`. -/
theorem finish_result {buffer : List Byte} {dims : Option Nat} {out out1 : ReadOutputs}
    {r : HapImageResult} (h : HapImageRead.finish buffer dims out = .returned r out1) :
    r = .No_Error ∨ r = .Bad_Image := by
  unfold HapImageRead.finish at h
  split at h
  · split at h
    · cases h
      exact Or.inl rfl
    · cases h
  · cases h
    exact Or.inr rfl

/-- One turn of the loop keeps `*frame` and `*frameBytes` in a state of the walk. -/
theorem outputsAfter_frameState {buffer : List Byte} {fb0 p bl hl sl ty : Nat}
    {out : ReadOutputs} (hp : 4 ≤ p)
    (hdr : hapimage_read_section_header buffer p bl = .ok hl sl ty)
    (hinv : FrameState buffer fb0 out) :
    FrameState buffer fb0 (HapImageRead.outputsAfter p hl sl ty out) := by
  unfold HapImageRead.outputsAfter
  split
  · exact hinv
  · split
    · rename_i htop
      exact Or.inr ⟨p, hl, sl, ty, bl, hp, rfl, hdr, is_top_level_eq_one htop, rfl⟩
    · exact hinv

/-- When the loop returns an error, the error is `Bad_Image`, and `*frame` and `*frameBytes`
are in a state of the walk. -/
theorem loop_error_frame (buffer : List Byte) (fb0 : Nat) :
    ∀ (fuel p n : Nat) (dims : Option Nat) (out out1 : ReadOutputs) (r : HapImageResult),
      4 ≤ p → FrameState buffer fb0 out →
      HapImageRead.loop buffer fuel p n dims out = .returned r out1 → r ≠ .No_Error →
      r = .Bad_Image ∧ FrameState buffer fb0 out1 := by
  intro fuel
  induction fuel with
  | zero =>
    intro p n dims out out1 r _ _ h
    cases h
  | succ fuel ih =>
    intro p n dims out out1 r hp hinv h hr
    rw [HapImageRead.loop] at h
    cases hdr : hapimage_read_section_header buffer p (n % 2 ^ 32) with
    | outOfBounds => rw [hdr] at h; cases h
    | failed r1 =>
      rw [hdr] at h
      have hr1 := read_section_header_failed hdr
      cases h
      exact ⟨hr1, hinv⟩
    | ok hl sl ty =>
      rw [hdr] at h
      simp only [] at h
      have hinv1 := outputsAfter_frameState hp hdr hinv
      split at h
      · exact ih _ _ _ _ _ _ (by omega) hinv1 h hr
      · rcases finish_result h with hno | hbad
        · exact absurd hno hr
        · rw [finish_error h hr]
          exact ⟨hbad, hinv1⟩

/-! ## C1: Round trip of dimensions -/

/-- C1 (as stated, fails). A well-formed top-level section of `2 ^ 32 - 12` bytes behind the
16 bytes that `HapImageWrite(1, 1)` produces: the buffer has `2 ^ 32 + 4` bytes, the count
left after the signature is `2 ^ 32`, its conversion to the `uint32_t` parameter
`buffer_length` is 0, and `HapImageRead` returns `Bad_Image`. -/
theorem HapImageWrite_HapImageRead_huge_section :
    hugeTopLevelSection.WellFormed
      ∧ hapimage_is_top_level_section hugeTopLevelSection.type.val = 1
      ∧ HapImageWrite 1 1 (some (List.replicate 16 0)) 16 (some 0)
          = some ⟨.No_Error, some (headerBytes 1 1), some 16⟩
      ∧ (headerBytes 1 1 ++ hugeTopLevelSection.bytes).length = 2 ^ 32 + 4
      ∧ HapImageRead (headerBytes 1 1 ++ hugeTopLevelSection.bytes)
          (headerBytes 1 1 ++ hugeTopLevelSection.bytes).length ⟨0, 0, none, 0⟩
        = .returned .Bad_Image ⟨0, 0, none, 0⟩ := by
  have hbody : hugeTopLevelSection.body.length = 2 ^ 32 - 20 := List.length_replicate _ _
  have hlen : hugeTopLevelSection.bytes.length = 2 ^ 32 - 12 := by
    rw [Section.length_bytes, hbody]; rfl
  refine ⟨?_, by decide, by decide, ?_, ?_⟩
  · unfold Section.WellFormed
    rw [if_pos (by rfl), hbody]
    decide
  · rw [List.length_append, hlen]; rfl
  · rw [headerBytes_eq, List.append_assoc]
    exact HapImageRead_length_wraps _ _ (by
      rw [List.length_append, hlen]
      decide)

/-- C1 (amended). Round trip of dimensions: for every width and height below `2 ^ 32` and every
well-formed top-level section `s` (a 4- or 8-byte header whose type byte
`hapimage_is_top_level_section` accepts, followed by exactly `body_length` bytes), running
`HapImageWrite` into a 16-byte buffer and then `HapImageRead` on those 16 bytes followed by
`s` returns `No_Error` with the same width and height, the frame at offset 16 and `frameBytes`
the length of `s`, provided the count of bytes after the signature, 12 plus the length of
`s`, is below `2 ^ 32`. -/
theorem HapImageWrite_HapImageRead_round_trip (width height used : Nat) (buf16 : List Byte)
    (s : Section) (out : ReadOutputs) (hw : width < 2 ^ 32) (hh : height < 2 ^ 32)
    (h16 : buf16.length = 16) (hs : s.WellFormed)
    (htop : hapimage_is_top_level_section s.type.val = 1)
    (hsize : 12 + s.bytes.length < 2 ^ 32) :
    ∃ hdr : List Byte,
      HapImageWrite width height (some buf16) 16 (some used)
          = some ⟨.No_Error, some hdr, some 16⟩
        ∧ hdr.length = 16
        ∧ HapImageRead (hdr ++ s.bytes) (hdr ++ s.bytes).length out
          = .returned .No_Error ⟨width, height, some 16, s.bytes.length⟩ := by
  have hdrop : buf16.drop 16 = [] := by simp [h16]
  have hwrite := HapImageWrite_eq width height 16 used buf16 (le_refl 16) (by omega)
  rw [hdrop, List.append_nil] at hwrite
  refine ⟨headerBytes width height, hwrite, rfl, ?_⟩
  have hdl : (dimensionsSection width height).bytes.length = 12 := rfl
  have hsl := s.length_bytes
  have hhl : 4 ≤ s.headerLength := by unfold Section.headerLength; split <;> omega
  rw [headerBytes_eq, List.append_assoc, HapImageRead_signature]
  have hlen : (signature ++ ((dimensionsSection width height).bytes ++ s.bytes)).length
      = s.bytes.length + 14 + 1 + 1 := by
    simp [signature, hdl]; omega
  have hn : ((dimensionsSection width height).bytes ++ s.bytes).length
      = 12 + s.bytes.length := by simp [hdl]
  rw [hlen, hn]
  -- the dimensions section
  rw [loop_section _ _ 4 _ _ _ (dimensionsSection width height)
    (dimensionsSection_wellFormed width height) (by omega) (by omega)
    (fun i _ hi => load_middle signature _ s.bytes i hi)]
  have hd1 : HapImageRead.dimensionsAfter 4 (dimensionsSection width height).headerLength
      (dimensionsSection width height).type.val none = some 8 := rfl
  have ho1 : ∀ o : ReadOutputs, HapImageRead.outputsAfter 4
      (dimensionsSection width height).headerLength (dimensionsSection width height).body.length
      (dimensionsSection width height).type.val o = o := fun _ => rfl
  rw [hd1, ho1, if_pos ⟨Or.inl rfl, by omega⟩, hdl]
  -- the top-level section
  have hagree : ∀ i, i < 12 + s.bytes.length - 12 → i < s.bytes.length →
      load (signature ++ ((dimensionsSection width height).bytes ++ s.bytes)) (4 + 12 + i)
        = load s.bytes i := by
    intro i _ hi
    have := load_middle (signature ++ (dimensionsSection width height).bytes) s.bytes [] i hi
    simpa [signature, hdl, List.append_assoc] using this
  rw [loop_section _ _ (4 + 12) _ _ _ s hs (by omega) (by omega) hagree]
  have hne5 : s.type.val ≠ kHapSectionDimensions := by
    intro h5
    rw [h5] at htop
    exact absurd htop (by decide)
  have hd2 : HapImageRead.dimensionsAfter (4 + 12) s.headerLength s.type.val (some 8)
      = some 8 := by
    simp [HapImageRead.dimensionsAfter, hne5]
  have ho2 : HapImageRead.outputsAfter (4 + 12) s.headerLength s.body.length s.type.val
      { out with frame := none }
      = ⟨out.width, out.height, some 16, s.bytes.length⟩ := by
    have hm : (s.headerLength + s.body.length) % 2 ^ 32 = s.bytes.length := by
      rw [← hsl]; exact Nat.mod_eq_of_lt (by omega)
    unfold HapImageRead.outputsAfter
    rw [if_neg hne5, if_pos (by rw [htop]; decide), hm]
  rw [hd2, ho2, if_neg (by simp)]
  obtain ⟨rw1, rh1⟩ := read_dimensions signature s.bytes width height hw hh
  have e8 : signature.length + 4 = 8 := rfl
  have e12 : signature.length + 4 + 4 = 8 + 4 := rfl
  rw [e8] at rw1
  rw [e12] at rh1
  simp only [HapImageRead.finish, rw1, rh1]

theorem HapImageWrite_HapImageRead_round_trip_witness :
    ∃ hdr : List Byte,
      HapImageWrite 1920 1080 (some (List.replicate 16 0)) 16 (some 0)
          = some ⟨.No_Error, some hdr, some 16⟩
        ∧ hdr.length = 16
        ∧ HapImageRead (hdr ++ (⟨true, 0xCE, [7, 7, 7]⟩ : Section).bytes)
            (hdr ++ (⟨true, 0xCE, [7, 7, 7]⟩ : Section).bytes).length ⟨0, 0, none, 0⟩
          = .returned .No_Error
              ⟨1920, 1080, some 16, (⟨true, 0xCE, [7, 7, 7]⟩ : Section).bytes.length⟩ :=
  HapImageWrite_HapImageRead_round_trip 1920 1080 0 (List.replicate 16 0)
    ⟨true, 0xCE, [7, 7, 7]⟩ ⟨0, 0, none, 0⟩ (by decide) (by decide) (by decide) (by decide)
    (by decide) (by decide)

/-! ## C2: Bounds of the reader -/

/-- C2 (evaluation at the failing inputs). Two buffers on which `HapImageRead` loads a byte
outside the input. In the first, of 14 bytes, the dimensions section is the last section and
has a one-byte body, so the eight bytes read for width and height run from index 13 to 20. In
the second, of 12 bytes, an 8-byte header carries the length `0xFFFFFFFC`; the 32-bit sum
`8 + 0xFFFFFFFC` wraps to 4 and passes the check, the pointer moves on by `2 ^ 32 + 4`, and
the next header is read from there. -/
theorem HapImageRead_reads_out_of_bounds :
    HapImageRead [0x88, 0x48, 0x61, 0x70, 1, 0, 0, 0xAB, 0, 1, 0, 0, 0x05, 0] 14
        ⟨0, 0, none, 0⟩ = .outOfBounds
      ∧ HapImageRead [0x88, 0x48, 0x61, 0x70, 0, 0, 0, 0x00, 0xFC, 0xFF, 0xFF, 0xFF] 12
        ⟨0, 0, none, 0⟩ = .outOfBounds := by
  decide

/-! ## C3: Exact output of the writer -/

/-- C3. Exact output of the writer: for every width and height below `2 ^ 32` and every
non-null output buffer whose capacity is at least 16, `HapImageWrite` returns `No_Error`, sets
bytes used to 16, and the first 16 bytes of the buffer are `88 48 61 70`, `08 00 00 05`, the
width as four little-endian bytes and the height as four little-endian bytes (the bytes from
index 16 on are those of the buffer before the call); `HapImageWrite(1920, 1080)` produces
`88 48 61 70 08 00 00 05 80 07 00 00 38 04 00 00`. -/
theorem HapImageWrite_exact_output (width height cap used : Nat) (buf : List Byte)
    (hw : width < 2 ^ 32) (hh : height < 2 ^ 32) (h16 : 16 ≤ cap) (hcap : cap ≤ buf.length) :
    HapImageWrite width height (some buf) cap (some used)
        = some ⟨.No_Error,
            some ([0x88, 0x48, 0x61, 0x70, 0x08, 0x00, 0x00, 0x05,
                toByte width, toByte (width / 2 ^ 8), toByte (width / 2 ^ 16),
                toByte (width / 2 ^ 24),
                toByte height, toByte (height / 2 ^ 8), toByte (height / 2 ^ 16),
                toByte (height / 2 ^ 24)] ++ buf.drop 16),
            some 16⟩
      ∧ width = (toByte width).val + 2 ^ 8 * (toByte (width / 2 ^ 8)).val
          + 2 ^ 16 * (toByte (width / 2 ^ 16)).val + 2 ^ 24 * (toByte (width / 2 ^ 24)).val
      ∧ height = (toByte height).val + 2 ^ 8 * (toByte (height / 2 ^ 8)).val
          + 2 ^ 16 * (toByte (height / 2 ^ 16)).val + 2 ^ 24 * (toByte (height / 2 ^ 24)).val
      ∧ HapImageWrite 1920 1080 (some (List.replicate 16 0)) 16 (some used)
        = some ⟨.No_Error,
            some [0x88, 0x48, 0x61, 0x70, 0x08, 0x00, 0x00, 0x05,
              0x80, 0x07, 0x00, 0x00, 0x38, 0x04, 0x00, 0x00],
            some 16⟩ := by
  refine ⟨HapImageWrite_eq width height cap used buf h16 hcap, ?_, ?_, ?_⟩
  · simp only [toByte_val]; omega
  · simp only [toByte_val]; omega
  · rw [HapImageWrite_eq 1920 1080 16 used _ (le_refl 16) (by simp)]
    decide

theorem HapImageWrite_exact_output_witness :
    HapImageWrite 640 480 (some (List.replicate 20 7)) 18 (some 0)
        = some ⟨.No_Error,
            some ([0x88, 0x48, 0x61, 0x70, 0x08, 0x00, 0x00, 0x05,
                toByte 640, toByte (640 / 2 ^ 8), toByte (640 / 2 ^ 16), toByte (640 / 2 ^ 24),
                toByte 480, toByte (480 / 2 ^ 8), toByte (480 / 2 ^ 16), toByte (480 / 2 ^ 24)]
              ++ (List.replicate 20 7).drop 16),
            some 16⟩ :=
  (HapImageWrite_exact_output 640 480 18 0 (List.replicate 20 7) (by decide) (by decide)
    (by decide) (by decide)).1

/-! ## C4: Capacity threshold of the writer -/

/-- C4. Capacity threshold of the writer: for every width, height and non-null output buffer
with a non-null bytes-used destination, `HapImageWrite` returns `No_Error` with bytes used 16
if and only if the output capacity is at least 16, and returns `Buffer_Too_Small` for every
capacity from 0 to 15 (leaving buffer and destination as they were). -/
theorem HapImageWrite_capacity_threshold (width height cap used : Nat) (buf : List Byte)
    (hcap : cap ≤ buf.length) :
    ((∃ o, HapImageWrite width height (some buf) cap (some used) = some o
          ∧ o.result = .No_Error ∧ o.outputBufferBytesUsed = some 16) ↔ 16 ≤ cap)
      ∧ (cap < 16 → HapImageWrite width height (some buf) cap (some used)
          = some ⟨.Buffer_Too_Small, some buf, some used⟩) := by
  have hsmall : cap < 16 → HapImageWrite width height (some buf) cap (some used)
      = some ⟨.Buffer_Too_Small, some buf, some used⟩ := by
    intro h
    simp [HapImageWrite, h]
  refine ⟨⟨?_, ?_⟩, hsmall⟩
  · rintro ⟨o, ho, hres, _⟩
    by_contra hlt
    rw [hsmall (by omega)] at ho
    cases ho
    cases hres
  · intro h16
    exact ⟨_, HapImageWrite_eq width height cap used buf h16 hcap, rfl, rfl⟩

theorem HapImageWrite_capacity_threshold_witness :
    ((∃ o, HapImageWrite 3 2 (some (List.replicate 16 0)) 16 (some 0) = some o
          ∧ o.result = .No_Error ∧ o.outputBufferBytesUsed = some 16) ↔ 16 ≤ 16)
      ∧ (15 < 16 → HapImageWrite 3 2 (some (List.replicate 15 0)) 15 (some 0)
          = some ⟨.Buffer_Too_Small, some (List.replicate 15 0), some 0⟩) :=
  ⟨(HapImageWrite_capacity_threshold 3 2 16 0 (List.replicate 16 0) (by decide)).1,
   (HapImageWrite_capacity_threshold 3 2 15 0 (List.replicate 15 0) (by decide)).2⟩

/-! ## C5: Signature gate -/

/-- C5. Signature gate: for every input buffer of at least 4 bytes whose first four bytes are
not exactly `88 48 61 70`, `HapImageRead` returns `Bad_Image`, whatever bytes follow (and it
leaves the four output locations as they were). -/
theorem HapImageRead_signature_gate (buf : List Byte) (out : ReadOutputs)
    (hlen : 4 ≤ buf.length) (hsig : buf.take 4 ≠ [0x88, 0x48, 0x61, 0x70]) :
    HapImageRead buf buf.length out = .returned .Bad_Image out := by
  rcases buf with _ | ⟨b0, _ | ⟨b1, _ | ⟨b2, _ | ⟨b3, rest⟩⟩⟩⟩
  all_goals try (exfalso; simp at hlen; done)
  have hne : ¬ (b0.val = 0x88 ∧ b1.val = 0x48 ∧ b2.val = 0x61 ∧ b3.val = 0x70) := by
    rintro ⟨h0, h1, h2, h3⟩
    apply hsig
    have e0 : b0 = 0x88 := Fin.ext h0
    have e1 : b1 = 0x48 := Fin.ext h1
    have e2 : b2 = 0x61 := Fin.ext h2
    have e3 : b3 = 0x70 := Fin.ext h3
    simp [e0, e1, e2, e3]
  have hl : ¬ (b0 :: b1 :: b2 :: b3 :: rest).length < 4 := by simp
  have hm : HapImageRead.signatureMismatch (b0 :: b1 :: b2 :: b3 :: rest) = some true := by
    simp only [HapImageRead.signatureMismatch, load, List.getElem?_cons_zero,
      List.getElem?_cons_succ]
    by_cases h0 : b0.val = 0x88
    · by_cases h1 : b1.val = 0x48
      · by_cases h2 : b2.val = 0x61
        · have h3 : b3.val ≠ 0x70 := fun h3 => hne ⟨h0, h1, h2, h3⟩
          simp [h0, h1, h2, h3]
        · simp [h0, h1, h2]
      · simp [h0, h1]
    · simp [h0]
  unfold HapImageRead
  rw [if_neg hl, hm]

theorem HapImageRead_signature_gate_witness :
    4 ≤ ([0x88, 0x48, 0x61, 0x71, 8, 0, 0, 5] : List Byte).length
      ∧ ([0x88, 0x48, 0x61, 0x71, 8, 0, 0, 5] : List Byte).take 4 ≠ [0x88, 0x48, 0x61, 0x70]
      ∧ HapImageRead [0x88, 0x48, 0x61, 0x71, 8, 0, 0, 5]
          ([0x88, 0x48, 0x61, 0x71, 8, 0, 0, 5] : List Byte).length ⟨1, 2, some 3, 4⟩
        = .returned .Bad_Image ⟨1, 2, some 3, 4⟩ :=
  ⟨by decide, by decide,
    HapImageRead_signature_gate [0x88, 0x48, 0x61, 0x71, 8, 0, 0, 5] ⟨1, 2, some 3, 4⟩
      (by decide) (by decide)⟩

/-! ## C6: Short input -/

/-- C6 (as stated, fails). On the empty buffer `HapImageRead` returns `Buffer_Too_Small`, not
`Bad_Image`. -/
theorem HapImageRead_empty_not_Bad_Image :
    HapImageRead [] ([] : List Byte).length ⟨0, 0, none, 0⟩
        = .returned .Buffer_Too_Small ⟨0, 0, none, 0⟩
      ∧ ¬ ∃ out1, HapImageRead [] ([] : List Byte).length ⟨0, 0, none, 0⟩
          = .returned .Bad_Image out1 := by
  refine ⟨rfl, ?_⟩
  rintro ⟨out1, h⟩
  cases h

/-- C6 (amended). Short input is rejected as too small: for every input buffer of fewer than 4
bytes (lengths 0, 1, 2 and 3), `HapImageRead` fails with the error kind `Buffer_Too_Small`
and leaves the four output locations as they were. -/
theorem HapImageRead_short_input (buf : List Byte) (out : ReadOutputs) (h : buf.length < 4) :
    HapImageRead buf buf.length out = .returned .Buffer_Too_Small out := by
  unfold HapImageRead
  rw [if_pos h]

theorem HapImageRead_short_input_witness :
    ([0x88, 0x48, 0x61] : List Byte).length < 4
      ∧ HapImageRead [0x88, 0x48, 0x61] ([0x88, 0x48, 0x61] : List Byte).length
          ⟨1, 2, some 3, 4⟩ = .returned .Buffer_Too_Small ⟨1, 2, some 3, 4⟩ :=
  ⟨by decide, HapImageRead_short_input [0x88, 0x48, 0x61] ⟨1, 2, some 3, 4⟩ (by decide)⟩

/-! ## C7: Truncated files -/

/-- C7 (as stated, fails). A valid file of 26 bytes (signature, dimensions section, top-level
section, one more section; all well-formed, exactly filling the buffer) whose first 21 bytes
`HapImageRead` accepts with `No_Error`: the walk stops at the section that completes the
pair and never looks at what follows. -/
theorem HapImageRead_truncation_accepted :
    (∀ s ∈ trailingSectionFile, s.WellFormed)
      ∧ HasBoth trailingSectionFile
      ∧ (fileBytes trailingSectionFile).length = 26
      ∧ 21 < 26
      ∧ HapImageRead ((fileBytes trailingSectionFile).take 21) 21 ⟨0, 0, none, 0⟩
          = .returned .No_Error ⟨1, 1, some 16, 5⟩ := by
  decide

/-- C7 (amended). Truncation is not accepted when only the last section completes the pair:
for every file `F` of `N` bytes that is the signature followed by well-formed sections exactly
filling the buffer, each section shorter than `2 ^ 32` bytes, in which the sections before the
last one do not already hold both a dimensions section and a top-level section, and every
length `k < N`, `HapImageRead` on the first `k` bytes of `F` returns `Buffer_Too_Small` (with
the output locations as they were) when `k < 4` and `Bad_Image` when `k ≥ 4`, and so never
returns `No_Error`. -/
theorem HapImageRead_truncated_rejected (init : List Section) (last : Section) (k : Nat)
    (out : ReadOutputs)
    (hwf : ∀ s ∈ init ++ [last], s.WellFormed)
    (hearly : ¬ HasBoth init)
    (hN : ∀ s ∈ init ++ [last], s.bytes.length < 2 ^ 32)
    (hk : k < (fileBytes (init ++ [last])).length) :
    (k < 4 → HapImageRead ((fileBytes (init ++ [last])).take k) k out
        = .returned .Buffer_Too_Small out)
      ∧ (4 ≤ k → ∃ o, HapImageRead ((fileBytes (init ++ [last])).take k) k out
        = .returned .Bad_Image o)
      ∧ ∀ o, HapImageRead ((fileBytes (init ++ [last])).take k) k out
          ≠ .returned .No_Error o := by
  have hsig : signature.length = 4 := rfl
  have hsmall : k < 4 → HapImageRead ((fileBytes (init ++ [last])).take k) k out
      = .returned .Buffer_Too_Small out := by
    intro h4
    unfold HapImageRead
    rw [if_pos h4]
  have hbig : 4 ≤ k → ∃ o, HapImageRead ((fileBytes (init ++ [last])).take k) k out
      = .returned .Bad_Image o := by
    intro h4
    have hflen : (fileBytes (init ++ [last])).length
        = 4 + (sectionsBytes (init ++ [last])).length := by
      unfold fileBytes
      rw [List.length_append, hsig]
    have htake : (fileBytes (init ++ [last])).take k
        = signature ++ (sectionsBytes (init ++ [last])).take (k - 4) := by
      unfold fileBytes
      rw [List.take_append_eq_append_take, hsig,
        List.take_of_length_le (by rw [hsig]; omega)]
    have hrl : ((sectionsBytes (init ++ [last])).take (k - 4)).length = k - 4 := by
      rw [List.length_take]; omega
    have hlen : (signature ++ (sectionsBytes (init ++ [last])).take (k - 4)).length = k := by
      rw [List.length_append, hsig, hrl]; omega
    have hread := HapImageRead_signature ((sectionsBytes (init ++ [last])).take (k - 4)) out
    rw [hlen, hrl, ← htake] at hread
    have hfuel := HapImageRead_ne_outOfFuel ((fileBytes (init ++ [last])).take k) k out
    rw [hread] at hfuel ⊢
    rcases loop_truncated k (init ++ [last]) [] signature k none
      { out with frame := none } hwf (by rw [hsig]; omega) (by rw [hsig]; omega)
      hN (by simp) (by simp)
      (by rw [List.dropLast_concat]; simpa using hearly) with h | ⟨o, h⟩
    · exact absurd h hfuel
    · exact ⟨o, h⟩
  refine ⟨hsmall, hbig, ?_⟩
  intro o1 h1
  by_cases h4 : k < 4
  · rw [hsmall h4] at h1
    cases h1
  · obtain ⟨o, h⟩ := hbig (by omega)
    rw [h] at h1
    cases h1

theorem HapImageRead_truncated_rejected_witness :
    (24 < 4 → HapImageRead ((fileBytes ([⟨false, 0x05, [1, 0, 0, 0, 1, 0, 0, 0]⟩]
          ++ [⟨true, 0xAB, [0]⟩])).take 24) 24 ⟨0, 0, none, 0⟩
        = .returned .Buffer_Too_Small ⟨0, 0, none, 0⟩)
      ∧ (4 ≤ 24 → ∃ o, HapImageRead ((fileBytes ([⟨false, 0x05, [1, 0, 0, 0, 1, 0, 0, 0]⟩]
          ++ [⟨true, 0xAB, [0]⟩])).take 24) 24 ⟨0, 0, none, 0⟩ = .returned .Bad_Image o)
      ∧ ∀ o, HapImageRead ((fileBytes ([⟨false, 0x05, [1, 0, 0, 0, 1, 0, 0, 0]⟩]
          ++ [⟨true, 0xAB, [0]⟩])).take 24) 24 ⟨0, 0, none, 0⟩ ≠ .returned .No_Error o :=
  HapImageRead_truncated_rejected [⟨false, 0x05, [1, 0, 0, 0, 1, 0, 0, 0]⟩] ⟨true, 0xAB, [0]⟩
    24 ⟨0, 0, none, 0⟩ (by decide) (by decide) (by decide) (by decide)

/-! ## C8: Unknown sections -/

/-- C8 (as stated, fails). `HapImageRead` succeeds on a 21-byte buffer (signature, dimensions
section, top-level section); with a well-formed section of unknown type and `2 ^ 32 - 17`
bytes inserted after the signature the buffer has `2 ^ 32 + 4` bytes, the count left after
the signature converts to a `buffer_length` of 0, and `HapImageRead` returns `Bad_Image`. -/
theorem HapImageRead_huge_unknown_section :
    HapImageRead (signature ++ [8, 0, 0, 5, 1, 0, 0, 0, 1, 0, 0, 0, 1, 0, 0, 0xAB, 0])
        (signature ++ [8, 0, 0, 5, 1, 0, 0, 0, 1, 0, 0, 0, 1, 0, 0, 0xAB, 0]).length
        ⟨0, 0, none, 0⟩ = .returned .No_Error ⟨1, 1, some 16, 5⟩
      ∧ hugeUnknownSection.WellFormed
      ∧ hugeUnknownSection.type.val ≠ kHapSectionDimensions
      ∧ hapimage_is_top_level_section hugeUnknownSection.type.val = 0
      ∧ HapImageRead
          (signature ++ hugeUnknownSection.bytes
            ++ [8, 0, 0, 5, 1, 0, 0, 0, 1, 0, 0, 0, 1, 0, 0, 0xAB, 0])
          (signature ++ hugeUnknownSection.bytes
            ++ [8, 0, 0, 5, 1, 0, 0, 0, 1, 0, 0, 0, 1, 0, 0, 0xAB, 0]).length
          ⟨0, 0, none, 0⟩ = .returned .Bad_Image ⟨0, 0, none, 0⟩ := by
  have hbody : hugeUnknownSection.body.length = 2 ^ 32 - 25 := List.length_replicate _ _
  have hlen : hugeUnknownSection.bytes.length = 2 ^ 32 - 17 := by
    rw [Section.length_bytes, hbody]; rfl
  refine ⟨by decide, ?_, by decide, by decide, ?_⟩
  · unfold Section.WellFormed
    rw [if_pos (by rfl), hbody]
    decide
  · rw [List.append_assoc]
    exact HapImageRead_length_wraps _ _ (by
      rw [List.length_append, hlen]
      decide)

/-- C8 (amended). Unknown-section tolerance: for every buffer `signature ++ rest` on which
`HapImageRead` succeeds with width `w`, height `h`, frame offset `o` and `frameBytes` `n`, and
every well-formed section `u` whose type byte is neither `0x05` nor accepted by
`hapimage_is_top_level_section`, `HapImageRead` on `signature ++ u ++ rest` also succeeds, with
the same `w`, `h` and `n` and frame offset `o` plus the length of `u`, provided the count of
bytes after the signature, the length of `u ++ rest`, is below `2 ^ 32`. -/
theorem HapImageRead_unknown_section_tolerance (rest : List Byte) (u : Section)
    (out : ReadOutputs) (w h o n : Nat) (hu : u.WellFormed)
    (hdim : u.type.val ≠ kHapSectionDimensions)
    (hnt : hapimage_is_top_level_section u.type.val = 0)
    (hsize : (u.bytes ++ rest).length < 2 ^ 32)
    (hB : HapImageRead (signature ++ rest) (signature ++ rest).length out
      = .returned .No_Error ⟨w, h, some o, n⟩) :
    HapImageRead (signature ++ u.bytes ++ rest) (signature ++ u.bytes ++ rest).length out
      = .returned .No_Error ⟨w, h, some (o + u.bytes.length), n⟩ := by
  have hsig : signature.length = 4 := rfl
  have hul := u.length_bytes
  have hhl : 4 ≤ u.headerLength := by unfold Section.headerLength; split <;> omega
  simp only [List.length_append] at hsize
  rw [HapImageRead_signature] at hB
  -- something follows the signature
  have hrest : 0 < rest.length := by
    rcases Nat.eq_zero_or_pos rest.length with h0 | hpos
    · rw [h0] at hB
      have hf : (signature ++ rest).length = 3 + 1 := by simp [hsig, h0]
      rw [hf, loop_nothing_left] at hB
      cases hB
    · exact hpos
  -- the walk over `rest`, seen from the start of `rest`
  have e1 : HapImageRead.loop (signature ++ rest) (signature ++ rest).length 4 rest.length none
        { out with frame := none }
      = shiftOutcome 4 (HapImageRead.loop rest (signature ++ rest).length 0 rest.length none
          { out with frame := none }) :=
    loop_shift signature rest _ 0 rest.length none { out with frame := none }
  rw [e1] at hB
  obtain ⟨o1, hX, rfl⟩ := shiftOutcome_eq_returned hB
  -- the longer buffer: one turn over `u`, then the same walk
  rw [List.append_assoc, HapImageRead_signature]
  have hf : (signature ++ (u.bytes ++ rest)).length
      = ((signature ++ rest).length + (u.bytes.length - 1)) + 1 := by
    simp only [List.length_append, hsig]; omega
  rw [hf, loop_section _ _ 4 _ _ _ u hu
    (by simp only [List.length_append]; omega)
    (by simp only [List.length_append]; omega)
    (fun i _ hi => load_middle signature u.bytes rest i hi)]
  have hd : HapImageRead.dimensionsAfter 4 u.headerLength u.type.val none = none := by
    simp [HapImageRead.dimensionsAfter, hdim]
  have ho : HapImageRead.outputsAfter 4 u.headerLength u.body.length u.type.val
      { out with frame := none } = { out with frame := none } := by
    simp [HapImageRead.outputsAfter, hdim, hnt]
  have hrem : (u.bytes ++ rest).length - u.bytes.length = rest.length := by
    simp only [List.length_append]; omega
  rw [hd, ho, hrem, if_pos ⟨Or.inl rfl, hrest⟩]
  have e2 : HapImageRead.loop (signature ++ (u.bytes ++ rest))
        ((signature ++ rest).length + (u.bytes.length - 1)) (4 + u.bytes.length) rest.length none
        { out with frame := none }
      = shiftOutcome (4 + u.bytes.length)
          (HapImageRead.loop rest ((signature ++ rest).length + (u.bytes.length - 1)) 0
            rest.length none { out with frame := none }) := by
    have := loop_shift (signature ++ u.bytes) rest
      ((signature ++ rest).length + (u.bytes.length - 1)) 0 rest.length none
      { out with frame := none }
    have hpl : (signature ++ u.bytes).length = 4 + u.bytes.length := by
      rw [List.length_append, hsig]
    rw [List.append_assoc, hpl] at this
    exact this
  rw [e2, loop_fuel_mono rest _ _ _ _ _ _ (by rw [hX]; exact fun hc => by cases hc), hX]
  simp [shiftOutcome, shiftOutputs]
  omega

theorem HapImageRead_unknown_section_tolerance_witness :
    HapImageRead
        (signature ++ (⟨false, 0x42, [1, 2, 3]⟩ : Section).bytes
          ++ [8, 0, 0, 5, 1, 0, 0, 0, 1, 0, 0, 0, 1, 0, 0, 0xAB, 0])
        (signature ++ (⟨false, 0x42, [1, 2, 3]⟩ : Section).bytes
          ++ [8, 0, 0, 5, 1, 0, 0, 0, 1, 0, 0, 0, 1, 0, 0, 0xAB, 0]).length ⟨0, 0, none, 0⟩
      = .returned .No_Error
          ⟨1, 1, some (16 + (⟨false, 0x42, [1, 2, 3]⟩ : Section).bytes.length), 5⟩ :=
  HapImageRead_unknown_section_tolerance [8, 0, 0, 5, 1, 0, 0, 0, 1, 0, 0, 0, 1, 0, 0, 0xAB, 0]
    ⟨false, 0x42, [1, 2, 3]⟩ ⟨0, 0, none, 0⟩ 1 1 16 5 (by decide) (by decide) (by decide)
    (by decide) (by decide)

/-! ## C9: Classification of section types -/

/-- C9. Exact classification: over all 256 byte values, `hapimage_is_top_level_section`
returns 1 for exactly 13 values, namely `0x0D` and the twelve bytes whose high nibble is in
`{0xA, 0xB, 0xC}` and whose low nibble is in `{0xB, 0xE, 0xF, 0x1}`, and returns 0 for the
other 243 values, among them the dimensions tag `0x05`. -/
theorem hapimage_is_top_level_section_exact :
    (∀ t : Byte, hapimage_is_top_level_section t.val = 1 ↔
        (t.val = 0x0D ∨
          ((t.val / 16 = 0xA ∨ t.val / 16 = 0xB ∨ t.val / 16 = 0xC) ∧
            (t.val % 16 = 0xB ∨ t.val % 16 = 0xE ∨ t.val % 16 = 0xF ∨ t.val % 16 = 0x1))))
      ∧ (∀ t : Byte, hapimage_is_top_level_section t.val ≠ 1 →
          hapimage_is_top_level_section t.val = 0)
      ∧ ((List.range 256).filter (fun t => hapimage_is_top_level_section t = 1)).length = 13
      ∧ ((List.range 256).filter (fun t => hapimage_is_top_level_section t = 0)).length = 243
      ∧ hapimage_is_top_level_section kHapSectionDimensions = 0 := by
  decide

/-! ## C10: Decoded sections and the buffer length -/

/-- C10 (evaluation at the failing input). On the eight bytes `00 00 00 05 FC FF FF FF` with
`buffer_length` 8, `hapimage_read_section_header` returns `No_Error` with `header_length` 8
and body length `4294967292`: their 32-bit sum is 4, which passes the check, while their sum
as natural numbers is `4294967300`, far more than `buffer_length`. -/
theorem hapimage_read_section_header_sum_wraps :
    hapimage_read_section_header [0, 0, 0, 0x05, 0xFC, 0xFF, 0xFF, 0xFF] 0 8
        = .ok 8 4294967292 5
      ∧ (8 + 4294967292) % 2 ^ 32 = 4
      ∧ ¬ (8 + 4294967292 ≤ 8) := by
  decide

/-! ## C11: Compact and extended headers -/

/-- C11. Escape-header equivalence: for every body length `L` with `1 ≤ L < 2 ^ 24`, every
type byte `t` and every `buffer_length ≥ 8 + L`, `hapimage_read_section_header` on the
compact bytes (`L` as three little-endian bytes, then `t`) returns header length 4, body
length `L` and type `t`, and on the extended bytes (`00 00 00`, `t`, `L` as four little-endian
bytes) returns header length 8, body length `L` and type `t`: the two agree on body length
and type and differ only in the header length. Whatever follows the header in the buffer
plays no part. -/
theorem hapimage_read_section_header_escape_equivalence (L r : Nat) (t : Byte)
    (post : List Byte) (hL1 : 1 ≤ L) (hL : L < 2 ^ 24) (hr : 8 + L ≤ r) :
    hapimage_read_section_header
        ([toByte L, toByte (L / 2 ^ 8), toByte (L / 2 ^ 16), t] ++ post) 0 r
        = .ok 4 L t.val
      ∧ hapimage_read_section_header
        ([0, 0, 0, t, toByte L, toByte (L / 2 ^ 8), toByte (L / 2 ^ 16), toByte (L / 2 ^ 24)]
          ++ post) 0 r
        = .ok 8 L t.val := by
  constructor
  · exact read_section_header_compact (by omega) hL (by omega) rfl rfl rfl
      (by simp [load])
  · exact read_section_header_extended (by omega) hr rfl rfl rfl (by simp [load]) rfl rfl rfl
      (by simp [load, toByte_val])

theorem hapimage_read_section_header_escape_equivalence_witness :
    hapimage_read_section_header
        ([toByte 300, toByte (300 / 2 ^ 8), toByte (300 / 2 ^ 16), 0xAB] ++ []) 0 308
        = .ok 4 300 (0xAB : Byte).val
      ∧ hapimage_read_section_header
        ([0, 0, 0, 0xAB, toByte 300, toByte (300 / 2 ^ 8), toByte (300 / 2 ^ 16),
          toByte (300 / 2 ^ 24)] ++ []) 0 308
        = .ok 8 300 (0xAB : Byte).val :=
  hapimage_read_section_header_escape_equivalence 300 308 0xAB [] (by decide) (by decide)
    (by decide)

/-! ## C12: Which section of a kind is returned -/

/-- C12 (as stated, fails). Two files on which `HapImageRead` succeeds with the later section
of a kind. The first holds a dimensions section for 1 by 1, a dimensions section for 2 by 2
and a top-level section: the result is 2 by 2. The second holds a top-level section at offset
4, a top-level section of 6 bytes at offset 9 and a dimensions section: the frame returned is
the one at offset 9. -/
theorem HapImageRead_later_section_replaces :
    HapImageRead
        [0x88, 0x48, 0x61, 0x70, 8, 0, 0, 5, 1, 0, 0, 0, 1, 0, 0, 0,
          8, 0, 0, 5, 2, 0, 0, 0, 2, 0, 0, 0, 1, 0, 0, 0xAB, 0] 33 ⟨0, 0, none, 0⟩
        = .returned .No_Error ⟨2, 2, some 28, 5⟩
      ∧ HapImageRead
        [0x88, 0x48, 0x61, 0x70, 1, 0, 0, 0xAB, 0, 2, 0, 0, 0xBE, 0, 0,
          8, 0, 0, 5, 1, 0, 0, 0, 1, 0, 0, 0] 27 ⟨0, 0, none, 0⟩
        = .returned .No_Error ⟨1, 1, some 9, 6⟩ := by
  decide

/-- C12 (amended). Last match before the walk stops: take a buffer that is the signature
followed by well-formed sections and then any bytes (fewer than `2 ^ 32` bytes after the
signature), where `last` is the first section at which both a dimensions section and a
top-level section have been seen. Then the walk stops after `last`; the returned frame is the
last top-level section among the sections up to and including `last` (offset and whole
length), and width and height are the two little-endian 32-bit integers read at the body of
the last section of type `0x05` among them. A later section of a kind replaces an earlier one
of that kind as long as the other kind has not been seen. -/
theorem HapImageRead_last_match (init : List Section) (last : Section) (tail : List Byte)
    (out : ReadOutputs)
    (preT : List Section) (f : Section) (postT : List Section)
    (preD : List Section) (d : Section) (postD : List Section) (w h : Nat)
    (hwf : ∀ s ∈ init ++ [last], s.WellFormed)
    (hcount : (sectionsBytes (init ++ [last]) ++ tail).length < 2 ^ 32)
    (hearly : ¬ HasBoth init) (hboth : HasBoth (init ++ [last]))
    (hT : init ++ [last] = preT ++ f :: postT) (hf : f.IsTopLevel)
    (hlastT : ∀ x ∈ postT, ¬ x.IsTopLevel)
    (hD : init ++ [last] = preD ++ d :: postD) (hd : d.IsDimensions)
    (hlastD : ∀ x ∈ postD, ¬ x.IsDimensions)
    (hw : hapimage_read_4_byte_uint (fileBytes (init ++ [last]) ++ tail)
      (4 + (sectionsBytes preD).length + d.headerLength) = some w)
    (hh : hapimage_read_4_byte_uint (fileBytes (init ++ [last]) ++ tail)
      (4 + (sectionsBytes preD).length + d.headerLength + 4) = some h) :
    HapImageRead (fileBytes (init ++ [last]) ++ tail)
        (fileBytes (init ++ [last]) ++ tail).length out
      = .returned .No_Error ⟨w, h, some (4 + (sectionsBytes preT).length), f.bytes.length⟩ := by
  have hfl : f.bytes.length < 2 ^ 32 := by
    have : (sectionsBytes (init ++ [last])).length
        = (sectionsBytes preT).length + (f.bytes.length + (sectionsBytes postT).length) := by
      rw [hT, sectionsBytes_append, sectionsBytes, List.length_append, List.length_append]
    rw [List.length_append] at hcount
    omega
  have hbuf : fileBytes (init ++ [last]) ++ tail
      = signature ++ (sectionsBytes (init ++ [last]) ++ tail) := by
    unfold fileBytes
    rw [List.append_assoc]
  rw [hbuf] at hw hh ⊢
  rw [HapImageRead_of_first_complete init last tail out hwf hcount hearly hboth]
  have hdims : walkDimensions 4 (init ++ [last]) none
      = some (4 + (sectionsBytes preD).length + d.headerLength) := by
    rw [hD]
    exact walkDimensions_last d postD hd hlastD preD 4 none
  have houts : walkOutputs 4 (init ++ [last]) { out with frame := none }
      = ⟨out.width, out.height, some (4 + (sectionsBytes preT).length), f.bytes.length⟩ := by
    rw [hT]
    exact walkOutputs_last f postT hf hfl hlastT preT 4 _
  rw [hdims, houts]
  simp only [HapImageRead.finish, hw, hh]

theorem HapImageRead_last_match_witness :
    HapImageRead
        (fileBytes ([dimensionsSection 1 1, dimensionsSection 2 2] ++ [(⟨false, 0xAB, [0]⟩ : Section)])
          ++ [9, 9])
        (fileBytes ([dimensionsSection 1 1, dimensionsSection 2 2] ++ [(⟨false, 0xAB, [0]⟩ : Section)])
          ++ [9, 9]).length ⟨0, 0, none, 0⟩
      = .returned .No_Error
          ⟨2, 2, some (4 + (sectionsBytes [dimensionsSection 1 1, dimensionsSection 2 2]).length),
            (⟨false, 0xAB, [0]⟩ : Section).bytes.length⟩ :=
  HapImageRead_last_match [dimensionsSection 1 1, dimensionsSection 2 2]
    (⟨false, 0xAB, [0]⟩ : Section) [9, 9] ⟨0, 0, none, 0⟩
    [dimensionsSection 1 1, dimensionsSection 2 2] (⟨false, 0xAB, [0]⟩ : Section) []
    [dimensionsSection 1 1] (dimensionsSection 2 2) [(⟨false, 0xAB, [0]⟩ : Section)] 2 2
    (by decide) (by decide) (by decide) (by decide) (by decide) (by decide) (by decide)
    (by decide) (by decide) (by decide) (by decide) (by decide)

/-! ## C13: Acceptance condition -/

/-- C13 (as stated, fails). A file of the signature and two well-formed sections, a top-level
section and a dimensions section, that exactly fill the buffer, with `2 ^ 32` bytes after the
signature: the count converts to a `buffer_length` of 0 and `HapImageRead` returns
`Bad_Image` although both kinds are there. -/
theorem HapImageRead_huge_file_rejected :
    (∀ s ∈ [(⟨false, 0xAB, [0]⟩ : Section), hugeDimensionsSection], s.WellFormed)
      ∧ HasBoth [(⟨false, 0xAB, [0]⟩ : Section), hugeDimensionsSection]
      ∧ HapImageRead (fileBytes [(⟨false, 0xAB, [0]⟩ : Section), hugeDimensionsSection])
          (fileBytes [(⟨false, 0xAB, [0]⟩ : Section), hugeDimensionsSection]).length
          ⟨0, 0, none, 0⟩ = .returned .Bad_Image ⟨0, 0, none, 0⟩ := by
  have hbody : hugeDimensionsSection.body.length = 2 ^ 32 - 13 := List.length_replicate _ _
  have hlen : hugeDimensionsSection.bytes.length = 2 ^ 32 - 5 := by
    rw [Section.length_bytes, hbody]; rfl
  have hwf : hugeDimensionsSection.WellFormed := by
    unfold Section.WellFormed
    rw [if_pos (by rfl), hbody]
    decide
  refine ⟨?_, ?_, ?_⟩
  · intro s hs
    simp only [List.mem_cons, List.mem_singleton, List.not_mem_nil, or_false] at hs
    rcases hs with rfl | rfl
    · decide
    · exact hwf
  · exact ⟨⟨hugeDimensionsSection, List.mem_cons_of_mem _ (List.mem_cons_self _ _), rfl⟩,
      ⟨⟨false, 0xAB, [0]⟩, List.mem_cons_self _ _, by decide⟩⟩
  · unfold fileBytes
    have hsmall : (⟨false, 0xAB, [0]⟩ : Section).bytes.length = 5 := rfl
    exact HapImageRead_length_wraps _ _ (by
      rw [sectionsBytes, sectionsBytes, sectionsBytes, List.length_append, List.length_append,
        List.length_nil, hlen, hsmall]
      decide)

/-- C13 (amended). Acceptance condition: for every buffer that is the signature followed by a
sequence of well-formed sections exactly filling the buffer, with fewer than `2 ^ 32` bytes
after the signature and every dimensions section carrying a body of at least 8 bytes,
`HapImageRead` returns `No_Error` if and only if the sequence contains at least one section
of type `0x05` and at least one section of top-level type, and returns `Bad_Image`
otherwise. -/
theorem HapImageRead_acceptance (secs : List Section) (out : ReadOutputs)
    (hwf : ∀ s ∈ secs, s.WellFormed)
    (hdim : ∀ s ∈ secs, s.IsDimensions → 8 ≤ s.body.length)
    (hcount : (sectionsBytes secs).length < 2 ^ 32) :
    ((∃ o, HapImageRead (fileBytes secs) (fileBytes secs).length out = .returned .No_Error o)
        ↔ HasBoth secs)
      ∧ (¬ HasBoth secs →
          ∃ o, HapImageRead (fileBytes secs) (fileBytes secs).length out
            = .returned .Bad_Image o) := by
  refine ⟨⟨?_, HapImageRead_of_HasBoth secs out hwf hdim hcount⟩,
    HapImageRead_of_not_HasBoth secs out hwf hcount⟩
  rintro ⟨o, ho⟩
  by_contra hnb
  obtain ⟨o1, ho1⟩ := HapImageRead_of_not_HasBoth secs out hwf hcount hnb
  rw [ho1] at ho
  cases ho

theorem HapImageRead_acceptance_witness :
    ((∃ o, HapImageRead (fileBytes [dimensionsSection 3 2, ⟨false, 0xAB, [0]⟩])
          (fileBytes [dimensionsSection 3 2, ⟨false, 0xAB, [0]⟩]).length ⟨0, 0, none, 0⟩
          = .returned .No_Error o)
        ↔ HasBoth [dimensionsSection 3 2, ⟨false, 0xAB, [0]⟩])
      ∧ (¬ HasBoth [dimensionsSection 3 2, ⟨false, 0xAB, [0]⟩] →
          ∃ o, HapImageRead (fileBytes [dimensionsSection 3 2, ⟨false, 0xAB, [0]⟩])
            (fileBytes [dimensionsSection 3 2, ⟨false, 0xAB, [0]⟩]).length ⟨0, 0, none, 0⟩
            = .returned .Bad_Image o) :=
  HapImageRead_acceptance [dimensionsSection 3 2, ⟨false, 0xAB, [0]⟩] ⟨0, 0, none, 0⟩
    (by decide) (by decide) (by decide)

/-! ## C14: The frame reference -/

/-- C14 (evaluation at the failing input). On the 24 bytes `88 48 61 70`,
`08 00 00 05 01 00 00 00 01 00 00 00`, `00 00 00 AB FC FF FF FF` (signature, dimensions
section, and an 8-byte top-level header with the length `0xFFFFFFFC`) `HapImageRead` returns
`No_Error` with the frame at offset 16 and `frameBytes` 4. The header decoded at offset 16 has
a top-level type, header length 8 and body length `4294967292`, so `frameBytes` is not their
sum as natural numbers, and the section they describe does not lie inside the 24 bytes. -/
theorem HapImageRead_frameBytes_wraps :
    HapImageRead
        [0x88, 0x48, 0x61, 0x70, 8, 0, 0, 5, 1, 0, 0, 0, 1, 0, 0, 0,
          0, 0, 0, 0xAB, 0xFC, 0xFF, 0xFF, 0xFF] 24 ⟨0, 0, none, 0⟩
        = .returned .No_Error ⟨1, 1, some 16, 4⟩
      ∧ hapimage_read_section_header
        [0x88, 0x48, 0x61, 0x70, 8, 0, 0, 5, 1, 0, 0, 0, 1, 0, 0, 0,
          0, 0, 0, 0xAB, 0xFC, 0xFF, 0xFF, 0xFF] 16 8
        = .ok 8 4294967292 0xAB
      ∧ hapimage_is_top_level_section 0xAB = 1
      ∧ 4 ≠ 8 + 4294967292
      ∧ ¬ (16 + (8 + 4294967292) ≤ 24) := by
  decide

/-! ## C15: The writer is all-or-nothing -/

/-- C15. The writer is all-or-nothing and touches only the header: whatever the arguments
(the capacity passed being available in the buffer), `HapImageWrite` returns one of
`Bad_Arguments`, `Buffer_Too_Small` and `No_Error`; when it returns `Buffer_Too_Small` or
`Bad_Arguments`, every byte of the output buffer and the bytes-used destination are
unchanged; when it returns `No_Error`, the capacity is at least 16, the buffer keeps its
length and every byte at index 16 and above is unchanged. -/
theorem HapImageWrite_all_or_nothing (width height cap : Nat)
    (outputBuffer : Option (List Byte)) (used : Option Nat)
    (hcap : ∀ buf, outputBuffer = some buf → cap ≤ buf.length) :
    ∃ o, HapImageWrite width height outputBuffer cap used = some o
      ∧ (o.result = .Bad_Arguments ∨ o.result = .Buffer_Too_Small ∨ o.result = .No_Error)
      ∧ (o.result = .Buffer_Too_Small ∨ o.result = .Bad_Arguments →
          o.outputBuffer = outputBuffer ∧ o.outputBufferBytesUsed = used)
      ∧ (o.result = .No_Error →
          16 ≤ cap ∧ ∃ buf m, outputBuffer = some buf ∧ o.outputBuffer = some m
            ∧ m.length = buf.length ∧ ∀ i, 16 ≤ i → m[i]? = buf[i]?) := by
  rcases outputBuffer with _ | buf
  · exact ⟨_, HapImageWrite_argument_check_aux width height cap none used (Or.inl rfl),
      Or.inl rfl, fun _ => ⟨rfl, rfl⟩, fun h => by cases h⟩
  rcases used with _ | u
  · exact ⟨_, HapImageWrite_argument_check_aux width height cap (some buf) none (Or.inr rfl),
      Or.inl rfl, fun _ => ⟨rfl, rfl⟩, fun h => by cases h⟩
  have hlen := hcap buf rfl
  by_cases h16 : cap < 16
  · refine ⟨⟨.Buffer_Too_Small, some buf, some u⟩, ?_, Or.inr (Or.inl rfl),
      fun _ => ⟨rfl, rfl⟩, fun h => by cases h⟩
    simp [HapImageWrite, h16]
  · refine ⟨_, HapImageWrite_eq width height cap u buf (by omega) hlen, Or.inr (Or.inr rfl),
      ?_, ?_⟩
    · intro h
      rcases h with h | h <;> cases h
    · intro _
      have h16l : (headerBytes width height).length = 16 := rfl
      refine ⟨by omega, buf, _, rfl, rfl, ?_, ?_⟩
      · rw [List.length_append, List.length_drop, h16l]
        omega
      · intro i hi
        rw [List.getElem?_append_right (by rw [h16l]; exact hi), h16l, List.getElem?_drop]
        congr 1
        omega

theorem HapImageWrite_all_or_nothing_witness :
    ∃ o, HapImageWrite 640 480 (some (List.replicate 20 7)) 18 (some 3) = some o
      ∧ (o.result = .Bad_Arguments ∨ o.result = .Buffer_Too_Small ∨ o.result = .No_Error)
      ∧ (o.result = .Buffer_Too_Small ∨ o.result = .Bad_Arguments →
          o.outputBuffer = some (List.replicate 20 7) ∧ o.outputBufferBytesUsed = some 3)
      ∧ (o.result = .No_Error →
          16 ≤ 18 ∧ ∃ buf m, some (List.replicate 20 (7 : Byte)) = some buf
            ∧ o.outputBuffer = some m
            ∧ m.length = buf.length ∧ ∀ i, 16 ≤ i → m[i]? = buf[i]?) :=
  HapImageWrite_all_or_nothing 640 480 18 (some (List.replicate 20 7)) (some 3)
    (fun buf h => by cases h; decide)

/-! ## C16: Termination of the section walk -/

/-- C16 (evaluation at the failing input). On the 12 bytes `88 48 61 70 00 00 00 00 F8 FF FF
FF` the first header decodes, with header length 8 and body length `4294967288`; the amount
subtracted from the remaining count is their 32-bit sum, which is 0. The first turn of the
loop does not return: it goes round again with the count still 8 and the pointer moved on by
`2 ^ 32`, and the next header is loaded from outside the buffer. -/
theorem HapImageRead_iteration_without_progress :
    hapimage_read_section_header
        [0x88, 0x48, 0x61, 0x70, 0, 0, 0, 0, 0xF8, 0xFF, 0xFF, 0xFF] 4 8
        = .ok 8 4294967288 0
      ∧ (8 + 4294967288) % 2 ^ 32 = 0
      ∧ (∀ (fuel : Nat) (out : ReadOutputs),
          HapImageRead.loop [0x88, 0x48, 0x61, 0x70, 0, 0, 0, 0, 0xF8, 0xFF, 0xFF, 0xFF]
              (fuel + 1) 4 8 none out
            = HapImageRead.loop [0x88, 0x48, 0x61, 0x70, 0, 0, 0, 0, 0xF8, 0xFF, 0xFF, 0xFF]
              fuel (4 + 2 ^ 32) 8 none out)
      ∧ HapImageRead [0x88, 0x48, 0x61, 0x70, 0, 0, 0, 0, 0xF8, 0xFF, 0xFF, 0xFF] 12
          ⟨0, 0, none, 0⟩ = .outOfBounds := by
  have hdr : hapimage_read_section_header
      [0x88, 0x48, 0x61, 0x70, 0, 0, 0, 0, 0xF8, 0xFF, 0xFF, 0xFF] 4 (8 % 2 ^ 32)
      = .ok 8 4294967288 0 := by decide
  refine ⟨by decide, by decide, ?_, by decide⟩
  intro fuel out
  have hd : HapImageRead.dimensionsAfter 4 8 0 none = none := rfl
  have ho : HapImageRead.outputsAfter 4 8 4294967288 0 out = out := by
    unfold HapImageRead.outputsAfter
    rw [if_neg (by decide), if_neg (by decide)]
  rw [HapImageRead.loop, hdr]
  simp only [hd, ho]
  rw [if_pos ⟨Or.inr trivial, by decide⟩]
  rfl

/-! ## C17: Argument check of the writer -/

/-- C17. Argument check of the writer: for every width, height and capacity (capacities
below 16 included), `HapImageWrite` returns `Bad_Arguments` when the output buffer is absent
(null), and also when the bytes-used destination is absent; the argument check comes before
the `Buffer_Too_Small` check, and nothing is written. -/
theorem HapImageWrite_argument_check (width height cap : Nat) (outputBuffer : Option (List Byte))
    (used : Option Nat) (hnull : outputBuffer = none ∨ used = none) :
    HapImageWrite width height outputBuffer cap used
      = some ⟨.Bad_Arguments, outputBuffer, used⟩ :=
  HapImageWrite_argument_check_aux width height cap outputBuffer used hnull

theorem HapImageWrite_argument_check_witness :
    HapImageWrite 1 1 none 3 (some 0) = some ⟨.Bad_Arguments, none, some 0⟩
      ∧ HapImageWrite 1 1 (some [1, 2, 3]) 3 none
          = some ⟨.Bad_Arguments, some [1, 2, 3], none⟩ :=
  ⟨HapImageWrite_argument_check 1 1 3 none (some 0) (Or.inl rfl),
   HapImageWrite_argument_check 1 1 3 (some [1, 2, 3]) none (Or.inr rfl)⟩

/-! ## C18: Section-header round trip -/

/-- C18. Section-header round trip: for every section length `L` with `1 ≤ L < 2 ^ 24`, every
type byte `t` in `0..255` and every `buffer_length ≥ 4 + L`,
`hapimage_write_section_header(L, t)` writes exactly the four bytes `L mod 256`,
`(L / 256) mod 256`, `L / 65536`, `t` (and leaves the bytes around them as they were), and
`hapimage_read_section_header` on those bytes returns `No_Error` with header length 4, body
length `L` and type `t`. -/
theorem hapimage_section_header_round_trip (L t r : Nat) (pre post : List Byte)
    (b0 b1 b2 b3 : Byte) (hL1 : 1 ≤ L) (hL : L < 2 ^ 24) (ht : t < 256) (hr : 4 + L ≤ r) :
    ∃ w0 w1 w2 w3 : Byte,
      hapimage_write_section_header (pre ++ b0 :: b1 :: b2 :: b3 :: post) pre.length L t
          = some (pre ++ w0 :: w1 :: w2 :: w3 :: post)
        ∧ w0.val = L % 256 ∧ w1.val = (L / 256) % 256 ∧ w2.val = L / 65536 ∧ w3.val = t
        ∧ hapimage_read_section_header (pre ++ w0 :: w1 :: w2 :: w3 :: post) pre.length r
          = .ok 4 L t := by
  refine ⟨toByte L, toByte (L / 2 ^ 8), toByte (L / 2 ^ 16), toByte t,
    write_section_header_eq pre post b0 b1 b2 b3 L t, rfl, rfl, ?_, ?_, ?_⟩
  · rw [toByte_val]; omega
  · rw [toByte_val]; omega
  · have h3 := load_at_3 pre (toByte L) (toByte (L / 2 ^ 8)) (toByte (L / 2 ^ 16)) (toByte t)
      post
    rw [toByte_val, Nat.mod_eq_of_lt ht] at h3
    exact read_section_header_compact (by omega) hL hr (load_cons_at _ _ _)
      (load_at_1 _ _ _ _) (load_at_2 _ _ _ _ _) h3

theorem hapimage_section_header_round_trip_witness :
    ∃ w0 w1 w2 w3 : Byte,
      hapimage_write_section_header (([0x88, 0x48, 0x61, 0x70] : List Byte)
            ++ 0 :: 0 :: 0 :: 0 :: [9, 9]) ([0x88, 0x48, 0x61, 0x70] : List Byte).length 70000 5
          = some ([0x88, 0x48, 0x61, 0x70] ++ w0 :: w1 :: w2 :: w3 :: [9, 9])
        ∧ w0.val = 70000 % 256 ∧ w1.val = (70000 / 256) % 256 ∧ w2.val = 70000 / 65536
        ∧ w3.val = 5
        ∧ hapimage_read_section_header ([0x88, 0x48, 0x61, 0x70] ++ w0 :: w1 :: w2 :: w3 :: [9, 9])
            ([0x88, 0x48, 0x61, 0x70] : List Byte).length 70004
          = .ok 4 70000 5 :=
  hapimage_section_header_round_trip 70000 5 70004 [0x88, 0x48, 0x61, 0x70] [9, 9] 0 0 0 0
    (by decide) (by decide) (by decide) (by decide)

/-! ## C19: The output locations on failure -/

/-- C19 (as stated, fails). On the nine bytes `88 48 61 70 01 00 00 AB 00` (the signature and
one top-level section, no dimensions section) `HapImageRead` returns `Bad_Image`, and the
caller's `frame` and `frameBytes`, which held `inputBuffer + 99` and 3 before the call, hold
`inputBuffer + 4` and 5 after it. -/
theorem HapImageRead_failure_changes_frame :
    HapImageRead [0x88, 0x48, 0x61, 0x70, 1, 0, 0, 0xAB, 0] 9 ⟨7, 8, some 99, 3⟩
        = .returned .Bad_Image ⟨7, 8, some 4, 5⟩
      ∧ (⟨7, 8, some 4, 5⟩ : ReadOutputs) ≠ ⟨7, 8, some 99, 3⟩ := by
  decide

/-- C19 (amended). What the reader leaves in its outputs on failure: for every input buffer
on which `HapImageRead` returns an error, the caller's width and height locations hold the
same values after the call as before it. When the buffer has fewer than 4 bytes the error is
`Buffer_Too_Small`, and when it has at least 4 bytes that are not the signature the error is
`Bad_Image`; in both cases frame and frameBytes are unchanged too. When the buffer opens with
the signature the error is `Bad_Image`, and either frame is `NULL` and frameBytes is
unchanged, or frame points at an offset of 4 or more where a section header decodes with a
top-level type, and frameBytes is the 32-bit sum of that header's header length and body
length. -/
theorem HapImageRead_failure_outputs (buf : List Byte) (out out1 : ReadOutputs)
    (r : HapImageResult) (h : HapImageRead buf buf.length out = .returned r out1)
    (hr : r ≠ .No_Error) :
    out1.width = out.width ∧ out1.height = out.height
      ∧ (buf.length < 4 → r = .Buffer_Too_Small ∧ out1 = out)
      ∧ (4 ≤ buf.length → buf.take 4 ≠ [0x88, 0x48, 0x61, 0x70] →
          r = .Bad_Image ∧ out1 = out)
      ∧ (4 ≤ buf.length → buf.take 4 = [0x88, 0x48, 0x61, 0x70] →
          r = .Bad_Image
            ∧ ((out1.frame = none ∧ out1.frameBytes = out.frameBytes)
              ∨ ∃ o hl sl ty bl, 4 ≤ o ∧ out1.frame = some o
                  ∧ hapimage_read_section_header buf o bl = .ok hl sl ty
                  ∧ hapimage_is_top_level_section ty = 1
                  ∧ out1.frameBytes = (hl + sl) % 2 ^ 32)) := by
  unfold HapImageRead at h
  by_cases h4 : buf.length < 4
  · rw [if_pos h4] at h
    cases h
    exact ⟨rfl, rfl, fun _ => ⟨rfl, rfl⟩, fun h1 => absurd h1 (by omega),
      fun h1 => absurd h1 (by omega)⟩
  · rw [if_neg h4] at h
    by_cases hsig : buf.take 4 = [0x88, 0x48, 0x61, 0x70]
    · have hb : buf = signature ++ buf.drop 4 := by
        have := List.take_append_drop 4 buf
        rw [hsig] at this
        exact this.symm
      have hm : HapImageRead.signatureMismatch buf = some false := by
        rw [hb]
        exact signatureMismatch_signature _
      rw [hm] at h
      simp only [] at h
      have hkeep := loop_error_keeps_dimensions buf _ _ _ _ _ _ _ h hr
      have hframe := loop_error_frame buf out.frameBytes buf.length 4 (buf.length - 4) none
        { out with frame := none } out1 r (le_refl 4) (Or.inl ⟨rfl, rfl⟩) h hr
      exact ⟨hkeep.1, hkeep.2, fun h1 => absurd h1 h4, fun _ hne => absurd hsig hne,
        fun _ _ => ⟨hframe.1, hframe.2⟩⟩
    · rw [signatureMismatch_of_take_ne buf (by omega) hsig] at h
      cases h
      exact ⟨rfl, rfl, fun h1 => absurd h1 h4, fun _ _ => ⟨rfl, rfl⟩,
        fun _ heq => absurd heq hsig⟩

theorem HapImageRead_failure_outputs_witness :
    (⟨7, 8, some 4, 5⟩ : ReadOutputs).width = (⟨7, 8, some 99, 3⟩ : ReadOutputs).width
      ∧ (⟨7, 8, some 4, 5⟩ : ReadOutputs).height = (⟨7, 8, some 99, 3⟩ : ReadOutputs).height
      ∧ (([0x88, 0x48, 0x61, 0x70, 1, 0, 0, 0xAB, 0] : List Byte).length < 4 →
          HapImageResult.Bad_Image = .Buffer_Too_Small
            ∧ (⟨7, 8, some 4, 5⟩ : ReadOutputs) = ⟨7, 8, some 99, 3⟩)
      ∧ (4 ≤ ([0x88, 0x48, 0x61, 0x70, 1, 0, 0, 0xAB, 0] : List Byte).length →
          ([0x88, 0x48, 0x61, 0x70, 1, 0, 0, 0xAB, 0] : List Byte).take 4
            ≠ [0x88, 0x48, 0x61, 0x70] →
          HapImageResult.Bad_Image = .Bad_Image
            ∧ (⟨7, 8, some 4, 5⟩ : ReadOutputs) = ⟨7, 8, some 99, 3⟩)
      ∧ (4 ≤ ([0x88, 0x48, 0x61, 0x70, 1, 0, 0, 0xAB, 0] : List Byte).length →
          ([0x88, 0x48, 0x61, 0x70, 1, 0, 0, 0xAB, 0] : List Byte).take 4
            = [0x88, 0x48, 0x61, 0x70] →
          HapImageResult.Bad_Image = .Bad_Image
            ∧ (((⟨7, 8, some 4, 5⟩ : ReadOutputs).frame = none
                ∧ (⟨7, 8, some 4, 5⟩ : ReadOutputs).frameBytes
                  = (⟨7, 8, some 99, 3⟩ : ReadOutputs).frameBytes)
              ∨ ∃ o hl sl ty bl, 4 ≤ o ∧ (⟨7, 8, some 4, 5⟩ : ReadOutputs).frame = some o
                  ∧ hapimage_read_section_header [0x88, 0x48, 0x61, 0x70, 1, 0, 0, 0xAB, 0]
                      o bl = .ok hl sl ty
                  ∧ hapimage_is_top_level_section ty = 1
                  ∧ (⟨7, 8, some 4, 5⟩ : ReadOutputs).frameBytes = (hl + sl) % 2 ^ 32)) :=
  HapImageRead_failure_outputs [0x88, 0x48, 0x61, 0x70, 1, 0, 0, 0xAB, 0] ⟨7, 8, some 99, 3⟩
    ⟨7, 8, some 4, 5⟩ .Bad_Image (by decide) (by decide)

/-! ## C20: Bytes after the sections found -/

end HapImage
